import Mathlib

/-!
Shallow embedding of `src/airline_reservation.py` (Airline-Ticket-Reservation-System).

Strings are modelled as `List Char`; the interactive functions of the source are
modelled as pure functions taking the values the user would type as arguments and
returning the result together with the new grid / roster state.  A seat grid is a
`List (List Char)` of cells `'O'` (available) / `'X'` (booked), exactly as in the
source.  The persistence file is modelled as an `Option (List Char)`: `none` for a
missing file, `some content` for the file's text.
-/

namespace Airline

abbrev Str := List Char

/-- Python `str.strip()` (ASCII whitespace). -/
def pyStrip (s : Str) : Str :=
  ((s.dropWhile Char.isWhitespace).reverse.dropWhile Char.isWhitespace).reverse

/-- Python `str.upper()` (ASCII letters). -/
def pyUpper (s : Str) : Str := s.map Char.toUpper

/-- Python `str.lower()` (ASCII letters). -/
def pyLower (s : Str) : Str := s.map Char.toLower

/-- Python `str.isdigit()` on an ASCII string: nonempty and all decimal digits. -/
def pyIsDigitStr (s : Str) : Bool := !s.isEmpty && s.all Char.isDigit

/-- Decimal value of a digit string, as Python `int` computes it. -/
def digitsVal (s : Str) : Nat := s.foldl (fun a c => a * 10 + (c.toNat - 48)) 0

/-- Python `int(s)` on a stripped string: optional sign, then digits;
`none` models the `ValueError`. -/
def pyToInt (s : Str) : Option Int :=
  match pyStrip s with
  | '+' :: ds => if pyIsDigitStr ds then some (digitsVal ds) else none
  | '-' :: ds => if pyIsDigitStr ds then some (-(digitsVal ds : Int)) else none
  | ds => if pyIsDigitStr ds then some (digitsVal ds) else none

/-- Split a character list at every separator accepted by `p`
(the shape of Python `str.split`). -/
def splitOnPred (p : Char → Bool) : Str → List Str
  | [] => [[]]
  | ch :: rest =>
    let r := splitOnPred p rest
    if p ch then [] :: r else (ch :: r.headD []) :: r.tail

/-- Python `line.split(",")`. -/
def splitOnComma : Str → List Str := splitOnPred (fun c => c = ',')

/-- Line decomposition of a text file (universal newlines). -/
def pySplitLines : Str → List Str := splitOnPred (fun c => c = '\n' || c = '\r')

/-- `Passenger` dataclass of the source. -/
structure Passenger where
  name : Str
  seat_number : Str
  flight_code : Str
deriving DecidableEq, Repr

/-- `Passenger.to_line`: `f"{self.name},{self.seat_number},{self.flight_code}"`. -/
def Passenger.to_line (p : Passenger) : Str :=
  p.name ++ (',' :: (p.seat_number ++ (',' :: p.flight_code)))

/-- `Passenger.from_line`: strip the line, split on commas, strip the parts,
require exactly three nonempty fields. -/
def Passenger.from_line (line : Str) : Option Passenger :=
  let parts := (splitOnComma (pyStrip line)).map pyStrip
  match parts with
  | [name, seat, flight] =>
    if name.isEmpty || seat.isEmpty || flight.isEmpty then none
    else some ⟨name, seat, flight⟩
  | _ => none

abbrev Grid := List (List Char)

/-- `init_seats`: a rows×cols grid of `'O'`. -/
def init_seats (rows cols : Nat) : Grid :=
  List.replicate rows (List.replicate cols 'O')

/-- `seat_to_index`: parse a seat label such as `"1A"` into zero-based
`(row, col)` indices (as Python integers, which may be negative: `"0A"`
parses to `(-1, 0)`). -/
def seat_to_index (seat : Str) : Option (Int × Int) :=
  let s := pyUpper (pyStrip seat)
  if s.length < 2 then none
  else
    let row_part := s.dropLast
    let col_part := s.getLastD 'A'
    if !pyIsDigitStr row_part then none
    else if !col_part.isAlpha then none
    else some ((digitsVal row_part : Int) - 1, (col_part.toNat : Int) - 65)

/-- Decimal digits of a natural number, most significant first. -/
def natDigits (n : Nat) : Str :=
  if h : n < 10 then [Char.ofNat (48 + n)]
  else natDigits (n / 10) ++ [Char.ofNat (48 + n % 10)]
decreasing_by
  exact Nat.div_lt_self (by omega) (by omega)

/-- `index_to_seat`: `f"{row + 1}{chr(ord('A') + col)}"`. -/
def index_to_seat (row col : Nat) : Str :=
  natDigits (row + 1) ++ [Char.ofNat (65 + col)]

/-- `is_valid_index`: `0 <= row < len(seats) and 0 <= col < len(seats[0])`
(short-circuit makes the `seats[0]` access safe exactly as in Python). -/
def is_valid_index (seats : Grid) (row col : Int) : Bool :=
  decide (0 ≤ row) && decide (row < (seats.length : Int)) &&
    decide (0 ≤ col) && decide (col < ((seats.headD []).length : Int))

/-- Read the cell `seats[r][c]` (used only behind `is_valid_index`). -/
def getCell (seats : Grid) (r c : Nat) : Char :=
  (seats.getD r []).getD c '?'

/-- Write the cell `seats[r][c] = v` (used only behind `is_valid_index`). -/
def setCell (seats : Grid) (r c : Nat) (v : Char) : Grid :=
  seats.set r ((seats.getD r []).set c v)

/-- `recursive_count_available`: recursively count `'O'` cells from `(r, c)`
in row-major order, bounding every row by `len(seats[0])`. -/
def recursive_count_available (seats : Grid) (r c : Nat) : Nat :=
  if seats.length ≤ r then 0
  else if (seats.headD []).length ≤ c then
    recursive_count_available seats (r + 1) 0
  else
    (if getCell seats r c = 'O' then 1 else 0) + recursive_count_available seats r (c + 1)
termination_by (seats.length - r, (seats.headD []).length - c)
decreasing_by
  · apply Prod.Lex.left
    omega
  · apply Prod.Lex.right
    omega

/-- `recursive_find_first_available`: first `'O'` cell from `(r, c)` in
row-major order, or `none`. -/
def recursive_find_first_available (seats : Grid) (r c : Nat) : Option (Nat × Nat) :=
  if seats.length ≤ r then none
  else if (seats.headD []).length ≤ c then
    recursive_find_first_available seats (r + 1) 0
  else if getCell seats r c = 'O' then some (r, c)
  else recursive_find_first_available seats r (c + 1)
termination_by (seats.length - r, (seats.headD []).length - c)
decreasing_by
  · apply Prod.Lex.left
    omega
  · apply Prod.Lex.right
    omega

/-- `find_passenger_by_exact_name`: indices of passengers whose stripped,
lower-cased name equals the stripped, lower-cased query. -/
def find_passenger_by_exact_name (passengers : List Passenger) (name : Str) : List Nat :=
  let key := pyLower (pyStrip name)
  (List.range passengers.length).filter
    (fun i => pyLower (pyStrip ((passengers.getD i ⟨[], [], []⟩).name)) = key)

/-- `is_seat_taken`: some roster entry's canonicalized seat label equals the
canonicalized query. -/
def is_seat_taken (passengers : List Passenger) (seat_number : Str) : Bool :=
  let s := pyUpper (pyStrip seat_number)
  passengers.any (fun p => pyUpper (pyStrip p.seat_number) = s)

/-- Outcome of `book_ticket`: one constructor per early-return message of the
source, plus success carrying the appended passenger. -/
inductive BookResult where
  | errEmptyName
  | errEmptyFlight
  | errNoSeats
  | errAutoNoSeats
  | errInvalidFormat
  | errOutOfRange
  | errAlreadyBooked
  | ok (p : Passenger)
deriving DecidableEq, Repr

/-- Whether a `BookResult` is the success case. -/
def BookResult.isOk : BookResult → Bool
  | .ok _ => true
  | _ => false

/-- Shared tail of `book_ticket` after seat resolution: parse the label,
bounds-check, conflict-check, then commit (`seats[row][col] = "X"`;
`passengers.append(...)`). -/
def bookCommit (seats : Grid) (passengers : List Passenger)
    (name flight seat_input : Str) : BookResult × Grid × List Passenger :=
  match seat_to_index seat_input with
  | none => (.errInvalidFormat, seats, passengers)
  | some (row, col) =>
    if !is_valid_index seats row col then (.errOutOfRange, seats, passengers)
    else if getCell seats row.toNat col.toNat = 'X' || is_seat_taken passengers seat_input then
      (.errAlreadyBooked, seats, passengers)
    else
      let p : Passenger := ⟨name, seat_input, flight⟩
      (.ok p, setCell seats row.toNat col.toNat 'X', passengers ++ [p])

/-- `book_ticket`, with the three values the user types passed as arguments. -/
def book_ticket (seats : Grid) (passengers : List Passenger)
    (nameIn flightIn seatIn : Str) : BookResult × Grid × List Passenger :=
  let name := pyStrip nameIn
  if name.isEmpty then (.errEmptyName, seats, passengers)
  else
    let flight_code := pyStrip flightIn
    if flight_code.isEmpty then (.errEmptyFlight, seats, passengers)
    else if recursive_count_available seats 0 0 = 0 then (.errNoSeats, seats, passengers)
    else
      let seat_input := pyUpper (pyStrip seatIn)
      if seat_input = "AUTO".data then
        match recursive_find_first_available seats 0 0 with
        | none => (.errAutoNoSeats, seats, passengers)
        | some (row, col) => bookCommit seats passengers name flight_code (index_to_seat row col)
      else bookCommit seats passengers name flight_code seat_input

/-- Outcome of `cancel_booking`. -/
inductive CancelResult where
  | errEmptyName
  | errNotFound
  | errInvalidSelection
  | errInvalidInput
  | ok (p : Passenger)
deriving DecidableEq, Repr

/-- Whether a `CancelResult` is the success case. -/
def CancelResult.isOk : CancelResult → Bool
  | .ok _ => true
  | _ => false

/-- Tail of `cancel_booking` once the target index is fixed: free the seat if
the stored label resolves and is in bounds, then pop the roster entry. -/
def cancelAt (seats : Grid) (passengers : List Passenger)
    (target_index : Nat) : CancelResult × Grid × List Passenger :=
  let target := passengers.getD target_index ⟨[], [], []⟩
  let seats' :=
    match seat_to_index target.seat_number with
    | some (r, c) => if is_valid_index seats r c then setCell seats r.toNat c.toNat 'O' else seats
    | none => seats
  (.ok target, seats', passengers.eraseIdx target_index)

/-- `cancel_booking`, with the name and, if needed, the disambiguation choice,
passed as arguments. -/
def cancel_booking (seats : Grid) (passengers : List Passenger)
    (nameIn choiceIn : Str) : CancelResult × Grid × List Passenger :=
  let name := pyStrip nameIn
  if name.isEmpty then (.errEmptyName, seats, passengers)
  else
    let hits := find_passenger_by_exact_name passengers name
    if hits.isEmpty then (.errNotFound, seats, passengers)
    else if 1 < hits.length then
      match pyToInt choiceIn with
      | none => (.errInvalidInput, seats, passengers)
      | some choice =>
        if choice < 1 ∨ (hits.length : Int) < choice then
          (.errInvalidSelection, seats, passengers)
        else cancelAt seats passengers (hits.getD (choice - 1).toNat 0)
    else cancelAt seats passengers (hits.getD 0 0)

/-- The reset loop of `load_bookings`: every cell back to `'O'`
(stated for the rectangular grids the system builds). -/
def reset_all (seats : Grid) : Grid :=
  seats.map (fun row => row.map (fun _ => 'O'))

/-- The per-line loop of `load_bookings`: skip blank lines, lines that fail
`from_line`, labels that fail `seat_to_index`, and out-of-bounds seats;
otherwise mark the cell `'X'` and append the record. -/
def load_lines (seats : Grid) (acc : List Passenger) : List Str → Grid × List Passenger
  | [] => (seats, acc)
  | line :: rest =>
    if (pyStrip line).isEmpty then load_lines seats acc rest
    else
      match Passenger.from_line line with
      | none => load_lines seats acc rest
      | some p =>
        match seat_to_index p.seat_number with
        | none => load_lines seats acc rest
        | some (r, c) =>
          if !is_valid_index seats r c then load_lines seats acc rest
          else load_lines (setCell seats r.toNat c.toNat 'X') (acc ++ [p]) rest

/-- `load_bookings`: a missing file returns an empty roster and leaves the grid
untouched; otherwise reset the grid and replay the file's lines. -/
def load_bookings (seats : Grid) (file : Option Str) : Grid × List Passenger :=
  match file with
  | none => (seats, [])
  | some content => load_lines (reset_all seats) [] (pySplitLines content)

/-- `save_bookings`: the text written to the file, one `to_line` plus newline
per passenger, in roster order. -/
def save_bookings (passengers : List Passenger) : Str :=
  (passengers.map (fun p => p.to_line ++ ['\n'])).flatten

/-- One operation issued by the menu loop (the inputs the user would type are
carried by the constructor; a load carries the persistence file's state). -/
inductive Op where
  | book (nameIn flightIn seatIn : Str)
  | cancel (nameIn choiceIn : Str)
  | load (file : Option Str)
deriving DecidableEq, Repr

/-- Apply one menu operation to the session state, as `main` does
(note `passengers = load_bookings(seats)` replaces the roster). -/
def applyOp (st : Grid × List Passenger) : Op → Grid × List Passenger
  | .book nameIn flightIn seatIn => (book_ticket st.1 st.2 nameIn flightIn seatIn).2
  | .cancel nameIn choiceIn => (cancel_booking st.1 st.2 nameIn choiceIn).2
  | .load file => load_bookings st.1 file

/-- Run a sequence of menu operations from an initial state. -/
def runOps (st : Grid × List Passenger) (ops : List Op) : Grid × List Passenger :=
  ops.foldl applyOp st

/-! ### Small list lemmas -/

lemma getD_set_self {α : Type} :
    ∀ (l : List α) (i : Nat) (a d : α), i < l.length → (l.set i a).getD i d = a := by
  intro l
  induction l with
  | nil => intro i a d h; simp at h
  | cons x xs ih =>
    intro i a d h
    cases i with
    | zero => rfl
    | succ n =>
      simp only [List.set_cons_succ, List.getD_cons_succ]
      exact ih n a d (by simpa using h)

lemma getD_set_other {α : Type} :
    ∀ (l : List α) (i j : Nat) (a d : α), i ≠ j → (l.set i a).getD j d = l.getD j d := by
  intro l
  induction l with
  | nil => intro i j a d _; simp [List.set]
  | cons x xs ih =>
    intro i j a d h
    cases i with
    | zero =>
      cases j with
      | zero => exact absurd rfl h
      | succ m => rfl
    | succ n =>
      cases j with
      | zero => rfl
      | succ m =>
        simp only [List.set_cons_succ, List.getD_cons_succ]
        exact ih n m a d (by omega)

lemma set_of_length_le {α : Type} :
    ∀ (l : List α) (i : Nat) (a : α), l.length ≤ i → l.set i a = l := by
  intro l
  induction l with
  | nil => intro i a _; simp
  | cons x xs ih =>
    intro i a h
    cases i with
    | zero => simp at h
    | succ n => simp only [List.set_cons_succ]; rw [ih n a (by simpa using h)]

lemma map_const_eq_replicate {α : Type} (c : Char) :
    ∀ l : List α, l.map (fun _ => c) = List.replicate l.length c := by
  intro l
  induction l with
  | nil => rfl
  | cons x xs ih => simp [ih, List.replicate]

/-! ### Grid shape and cell lemmas -/

/-- Two grids with the same number of rows and the same row lengths. -/
def sameShape (g g' : Grid) : Prop :=
  g.length = g'.length ∧ ∀ i, (g.getD i []).length = (g'.getD i []).length

lemma sameShape_refl (g : Grid) : sameShape g g := ⟨rfl, fun _ => rfl⟩

lemma sameShape_trans {g1 g2 g3 : Grid} (h1 : sameShape g1 g2) (h2 : sameShape g2 g3) :
    sameShape g1 g3 :=
  ⟨h1.1.trans h2.1, fun i => (h1.2 i).trans (h2.2 i)⟩

lemma length_setCell (g : Grid) (r c : Nat) (v : Char) :
    (setCell g r c v).length = g.length := by simp [setCell]

lemma sameShape_setCell (g : Grid) (r c : Nat) (v : Char) :
    sameShape (setCell g r c v) g := by
  constructor
  · exact length_setCell g r c v
  · intro i
    by_cases h : r = i
    · subst h
      by_cases hr : r < g.length
      · rw [setCell, getD_set_self _ _ _ _ hr]
        simp
      · rw [setCell, set_of_length_le _ _ _ (by omega)]
    · rw [setCell, getD_set_other _ _ _ _ _ h]

lemma getCell_setCell_self (g : Grid) (r c : Nat) (v : Char)
    (hr : r < g.length) (hc : c < (g.getD r []).length) :
    getCell (setCell g r c v) r c = v := by
  unfold getCell setCell
  rw [getD_set_self _ _ _ _ hr]
  exact getD_set_self _ _ _ _ hc

lemma getCell_setCell_other (g : Grid) (r c : Nat) (v : Char) (r' c' : Nat)
    (h : r ≠ r' ∨ c ≠ c') :
    getCell (setCell g r c v) r' c' = getCell g r' c' := by
  unfold getCell setCell
  by_cases hrr : r = r'
  · subst hrr
    rcases h with h | h
    · exact absurd rfl h
    · by_cases hr : r < g.length
      · rw [getD_set_self _ _ _ _ hr, getD_set_other _ _ _ _ _ h]
      · rw [set_of_length_le _ _ _ (by omega)]
  · rw [getD_set_other _ _ _ _ _ hrr]

lemma reset_all_eq_of_sameShape {g g' : Grid} (h : sameShape g g') :
    reset_all g = reset_all g' := by
  unfold reset_all
  apply List.ext_getElem?
  intro i
  rcases h with ⟨hl, hrow⟩
  by_cases hi : i < g.length
  · have hi' : i < g'.length := by omega
    rw [List.getElem?_map, List.getElem?_map]
    rw [List.getElem?_eq_getElem (by simpa using hi), List.getElem?_eq_getElem (by simpa using hi')]
    show some (g[i].map fun _ => 'O') = some (g'[i].map fun _ => 'O')
    have h1 : (g.getD i []).length = g[i].length := by
      rw [List.getD_eq_getElem?_getD, List.getElem?_eq_getElem (by simpa using hi)]
      rfl
    have h2 : (g'.getD i []).length = g'[i].length := by
      rw [List.getD_eq_getElem?_getD, List.getElem?_eq_getElem (by simpa using hi')]
      rfl
    rw [map_const_eq_replicate, map_const_eq_replicate, ← h1, ← h2, hrow i]
  · have hi' : ¬ i < g'.length := by omega
    rw [List.getElem?_map, List.getElem?_map]
    rw [List.getElem?_eq_none (by omega), List.getElem?_eq_none (by omega)]

lemma sameShape_reset_all (g : Grid) : sameShape (reset_all g) g := by
  constructor
  · simp [reset_all]
  · intro i
    unfold reset_all
    by_cases hi : i < g.length
    · rw [List.getD_eq_getElem?_getD, List.getD_eq_getElem?_getD, List.getElem?_map]
      rw [List.getElem?_eq_getElem (by simpa using hi)]
      simp
    · rw [List.getD_eq_getElem?_getD, List.getD_eq_getElem?_getD, List.getElem?_map]
      rw [List.getElem?_eq_none (by omega)]
      rfl

lemma eq_dropLast_append_getLastD :
    ∀ (t : Str), t ≠ [] → ∀ d : Char, t = t.dropLast ++ [t.getLastD d] := by
  intro t
  induction t with
  | nil => intro h; exact absurd rfl h
  | cons a rest ih =>
    intro _ d
    cases rest with
    | nil => simp
    | cons b r2 =>
      have h2 := ih (by simp) a
      calc a :: b :: r2
          = a :: ((b :: r2).dropLast ++ [(b :: r2).getLastD a]) := by rw [← h2]
        _ = (a :: b :: r2).dropLast ++ [(a :: b :: r2).getLastD d] := by
            simp [List.getLastD]

lemma getLastD_append_single (ds : Str) (l d : Char) :
    (ds ++ [l]).getLastD d = l := by
  induction ds with
  | nil => simp
  | cons a rest ih => simp [List.getLastD]

/-! ### Rectangular grids -/

/-- Every row has the length of the first row — the shape `init_seats` creates
and both recursive scans and the reset loop assume. -/
def rectangular (g : Grid) : Prop := ∀ row ∈ g, row.length = (g.headD []).length

lemma rect_row_length {g : Grid} (h : rectangular g) {r : Nat} (hr : r < g.length) :
    (g.getD r []).length = (g.headD []).length := by
  have he : g.getD r [] = g[r] := by
    rw [List.getD_eq_getElem?_getD, List.getElem?_eq_getElem (by simpa using hr)]
    rfl
  rw [he]
  exact h g[r] (List.getElem_mem _)

/-! ### Unfolding equations for the recursive scans -/

lemma count_stop {g : Grid} {r c : Nat} (h : g.length ≤ r) :
    recursive_count_available g r c = 0 := by
  conv_lhs => rw [recursive_count_available.eq_def]
  simp [h]

lemma count_next_row {g : Grid} {r c : Nat} (h1 : ¬ g.length ≤ r)
    (h2 : (g.headD []).length ≤ c) :
    recursive_count_available g r c = recursive_count_available g (r + 1) 0 := by
  simp only [List.headD_eq_head?] at h2
  conv_lhs => rw [recursive_count_available.eq_def]
  simp [h1, h2]

lemma count_step {g : Grid} {r c : Nat} (h1 : ¬ g.length ≤ r)
    (h2 : ¬ (g.headD []).length ≤ c) :
    recursive_count_available g r c =
      (if getCell g r c = 'O' then 1 else 0) + recursive_count_available g r (c + 1) := by
  simp only [List.headD_eq_head?] at h2
  conv_lhs => rw [recursive_count_available.eq_def]
  simp [h1, h2]

lemma find_stop {g : Grid} {r c : Nat} (h : g.length ≤ r) :
    recursive_find_first_available g r c = none := by
  conv_lhs => rw [recursive_find_first_available.eq_def]
  simp [h]

lemma find_next_row {g : Grid} {r c : Nat} (h1 : ¬ g.length ≤ r)
    (h2 : (g.headD []).length ≤ c) :
    recursive_find_first_available g r c = recursive_find_first_available g (r + 1) 0 := by
  simp only [List.headD_eq_head?] at h2
  conv_lhs => rw [recursive_find_first_available.eq_def]
  simp [h1, h2]

lemma find_here {g : Grid} {r c : Nat} (h1 : ¬ g.length ≤ r)
    (h2 : ¬ (g.headD []).length ≤ c) (h3 : getCell g r c = 'O') :
    recursive_find_first_available g r c = some (r, c) := by
  simp only [List.headD_eq_head?] at h2
  conv_lhs => rw [recursive_find_first_available.eq_def]
  simp [h1, h2, h3]

lemma find_step {g : Grid} {r c : Nat} (h1 : ¬ g.length ≤ r)
    (h2 : ¬ (g.headD []).length ≤ c) (h3 : getCell g r c ≠ 'O') :
    recursive_find_first_available g r c = recursive_find_first_available g r (c + 1) := by
  simp only [List.headD_eq_head?] at h2
  conv_lhs => rw [recursive_find_first_available.eq_def]
  simp [h1, h2, h3]

/-! ### The seat-label codec (claim C2) -/

/-- Stated from the spec's words (minus the row-minimum clause): after trimming
and uppercasing, the label decomposes as a nonempty digit string followed by a
single letter. -/
def specValidLabel (s : Str) : Prop :=
  ∃ ds l, pyUpper (pyStrip s) = ds ++ [l] ∧ ds ≠ [] ∧
    ds.all Char.isDigit = true ∧ l.isAlpha = true

lemma seat_to_index_isSome_iff (s : Str) :
    (seat_to_index s).isSome = true ↔ specValidLabel s := by
  unfold seat_to_index specValidLabel
  set t := pyUpper (pyStrip s) with ht
  constructor
  · intro h
    by_cases h2 : t.length < 2
    · simp [h2] at h
    · refine ⟨t.dropLast, t.getLastD 'A', ?_, ?_, ?_, ?_⟩
      · exact eq_dropLast_append_getLastD t (by intro he; rw [he] at h2; simp at h2) 'A'
      · intro he
        have : t.dropLast.length = 0 := by rw [he]; rfl
        rw [List.length_dropLast] at this
        omega
      · by_cases hd : pyIsDigitStr t.dropLast
        · unfold pyIsDigitStr at hd
          exact (Bool.and_elim_right hd)
        · simp [h2, hd] at h
      · by_cases hd : pyIsDigitStr t.dropLast
        · by_cases ha : ((t.getLast?).getD 'A').isAlpha
          · rw [List.getLastD_eq_getLast?]
            exact ha
          · simp [h2, hd, ha] at h
        · simp [h2, hd] at h
  · rintro ⟨ds, l, he, hne, hdig, halpha⟩
    have hlen : 2 ≤ t.length := by
      rw [he, List.length_append]
      have : 1 ≤ ds.length := by
        cases ds with
        | nil => exact absurd rfl hne
        | cons _ _ => simp
      simp
      omega
    have hdrop : t.dropLast = ds := by rw [he]; exact List.dropLast_concat
    have hlast : t.getLastD 'A' = l := by rw [he]; exact getLastD_append_single ds l 'A'
    have hpd : pyIsDigitStr t.dropLast = true := by
      rw [hdrop]
      unfold pyIsDigitStr
      simp [hdig]
      intro h
      exact absurd h hne
    have h2 : ¬ t.length < 2 := by omega
    rw [List.getLastD_eq_getLast?] at hlast
    simp [h2, hpd, hlast, halpha]

/-- C2 (amended): the encoder succeeds iff, after trimming and uppercasing, the
label is a nonempty run of decimal digits followed by one letter; no minimum on
the row number is enforced by the encoder. -/
theorem C2_seat_encoder_success_iff (s : Str) :
    (seat_to_index s).isSome = true ↔ specValidLabel s :=
  seat_to_index_isSome_iff s

/-- C2 counterexample: the claim says the encoder fails on `"0A"` (row number
0), but the code parses `"0A"` successfully, to the coordinate `(-1, 0)`;
only the later bounds check rejects it. -/
theorem C2_counterexample_0A :
    seat_to_index ("0A".data) = some (-1, 0) := by decide

/-! ### Case analysis of `book_ticket` (claims C4, C5) -/

lemma bookCommit_cases (g : Grid) (ps : List Passenger) (n f seat : Str) :
    ((bookCommit g ps n f seat).1.isOk = false ∧ (bookCommit g ps n f seat).2 = (g, ps)) ∨
    (∃ row col : Int, seat_to_index seat = some (row, col) ∧
      is_valid_index g row col = true ∧
      getCell g row.toNat col.toNat ≠ 'X' ∧
      is_seat_taken ps seat = false ∧
      bookCommit g ps n f seat =
        (.ok ⟨n, seat, f⟩, setCell g row.toNat col.toNat 'X', ps ++ [(⟨n, seat, f⟩ : Passenger)])) := by
  unfold bookCommit
  cases hs : seat_to_index seat with
  | none => exact Or.inl ⟨rfl, rfl⟩
  | some rc =>
    obtain ⟨row, col⟩ := rc
    by_cases hv : is_valid_index g row col = true
    · by_cases hb : (getCell g row.toNat col.toNat = 'X' || is_seat_taken ps seat) = true
      · left
        constructor <;> simp [hv, hb, BookResult.isOk]
      · right
        refine ⟨row, col, rfl, hv, ?_, ?_, ?_⟩
        · intro hx
          exact hb (by simp [hx])
        · cases htk : is_seat_taken ps seat
          · rfl
          · exact absurd (by simp [htk]) hb
        · simp [hv, hb]
    · left
      constructor <;> simp [hv, BookResult.isOk]

lemma book_ticket_spec (g : Grid) (ps : List Passenger) (nIn fIn sIn : Str) :
    ((book_ticket g ps nIn fIn sIn).1.isOk = false ∧
      (book_ticket g ps nIn fIn sIn).2 = (g, ps)) ∨
    (∃ p row col, (book_ticket g ps nIn fIn sIn).1 = .ok p ∧
      seat_to_index p.seat_number = some (row, col) ∧
      is_valid_index g row col = true ∧
      getCell g row.toNat col.toNat ≠ 'X' ∧
      is_seat_taken ps p.seat_number = false ∧
      (book_ticket g ps nIn fIn sIn).2 =
        (setCell g row.toNat col.toNat 'X', ps ++ [p])) := by
  have hmain : ∀ n f seat,
      ((bookCommit g ps n f seat).1.isOk = false ∧ (bookCommit g ps n f seat).2 = (g, ps)) ∨
      (∃ p row col, (bookCommit g ps n f seat).1 = .ok p ∧
        seat_to_index p.seat_number = some (row, col) ∧
        is_valid_index g row col = true ∧
        getCell g row.toNat col.toNat ≠ 'X' ∧
        is_seat_taken ps p.seat_number = false ∧
        (bookCommit g ps n f seat).2 = (setCell g row.toNat col.toNat 'X', ps ++ [p])) := by
    intro n f seat
    rcases bookCommit_cases g ps n f seat with h | ⟨row, col, h1, h2, h3, h4, h5⟩
    · exact Or.inl h
    · right
      exact ⟨⟨n, seat, f⟩, row, col, by rw [h5], h1, h2, h3, h4, by rw [h5]⟩
  unfold book_ticket
  by_cases h1 : (pyStrip nIn).isEmpty
  · left
    simp [h1, BookResult.isOk]
  · by_cases h2 : (pyStrip fIn).isEmpty
    · left
      simp [h1, h2, BookResult.isOk]
    · by_cases h3 : recursive_count_available g 0 0 = 0
      · left
        simp [h1, h2, h3, BookResult.isOk]
      · by_cases h4 : pyUpper (pyStrip sIn) = "AUTO".data
        · cases hf : recursive_find_first_available g 0 0 with
          | none =>
            left
            simp [h1, h2, h3, h4, hf, BookResult.isOk]
          | some rc =>
            obtain ⟨row, col⟩ := rc
            have := hmain (pyStrip nIn) (pyStrip fIn) (index_to_seat row col)
            simpa [h1, h2, h3, h4, hf] using this
        · have := hmain (pyStrip nIn) (pyStrip fIn) (pyUpper (pyStrip sIn))
          simpa [h1, h2, h3, h4] using this

/-- C4: whenever `book_ticket` returns any error, the grid and the roster are
returned exactly as they were; only the final commit of a successful booking
mutates them. -/
theorem C4_book_error_no_mutation (g : Grid) (ps : List Passenger) (nIn fIn sIn : Str)
    (h : (book_ticket g ps nIn fIn sIn).1.isOk = false) :
    (book_ticket g ps nIn fIn sIn).2 = (g, ps) := by
  rcases book_ticket_spec g ps nIn fIn sIn with ⟨_, hst⟩ | ⟨p, _, _, hok, _⟩
  · exact hst
  · rw [hok] at h
    simp [BookResult.isOk] at h

/-- Witness for C4: booking with an empty passenger name fails and leaves the
1×1 grid and empty roster unchanged. -/
theorem C4_book_error_no_mutation_witness :
    (book_ticket [['O']] [] [] ("F".data) ("1A".data)).1.isOk = false ∧
    (book_ticket [['O']] [] [] ("F".data) ("1A".data)).2 = ([['O']], []) := by
  constructor
  · decide
  · exact C4_book_error_no_mutation [['O']] [] [] ("F".data) ("1A".data) (by decide)

lemma is_valid_index_iff (g : Grid) (row col : Int) :
    is_valid_index g row col = true ↔
      0 ≤ row ∧ row < (g.length : Int) ∧ 0 ≤ col ∧ col < ((g.headD []).length : Int) := by
  simp [is_valid_index, and_assoc]

lemma countP_seat_eq_zero_of_not_taken (ps : List Passenger) (seat : Str)
    (h : is_seat_taken ps seat = false) :
    ps.countP (fun q => pyUpper (pyStrip q.seat_number) = pyUpper (pyStrip seat)) = 0 := by
  rw [List.countP_eq_zero]
  intro a ha
  unfold is_seat_taken at h
  rw [List.any_eq_false] at h
  have := h a ha
  simpa using this

/-- C5: a successful booking marks exactly the resolved seat's cell `'X'`,
leaves every other in-range cell as it was, appends the new passenger at the
end of the roster leaving all earlier entries in place, and afterwards exactly
one roster entry carries that canonical seat label. -/
theorem C5_book_success_frame (g : Grid) (ps : List Passenger) (nIn fIn sIn : Str)
    (p : Passenger) (hrect : rectangular g)
    (h : (book_ticket g ps nIn fIn sIn).1 = .ok p) :
    ∃ row col : Int,
      seat_to_index p.seat_number = some (row, col) ∧
      is_valid_index g row col = true ∧
      getCell (book_ticket g ps nIn fIn sIn).2.1 row.toNat col.toNat = 'X' ∧
      (∀ r' c' : Nat, r' < g.length → c' < (g.headD []).length →
        ((r' : Int) ≠ row ∨ (c' : Int) ≠ col) →
        getCell (book_ticket g ps nIn fIn sIn).2.1 r' c' = getCell g r' c') ∧
      (book_ticket g ps nIn fIn sIn).2.2 = ps ++ [p] ∧
      (book_ticket g ps nIn fIn sIn).2.2.countP
        (fun q => pyUpper (pyStrip q.seat_number) = pyUpper (pyStrip p.seat_number)) = 1 := by
  rcases book_ticket_spec g ps nIn fIn sIn with ⟨hbad, _⟩ |
    ⟨p', row, col, hok, hparse, hvalid, hcell, htaken, hst⟩
  · rw [h] at hbad
    simp [BookResult.isOk] at hbad
  · have hpp : p' = p := by
      have h2 := hok.symm.trans h
      injection h2
    rw [hpp] at hparse htaken hst
    obtain ⟨hr0, hr1, hc0, hc1⟩ := (is_valid_index_iff g row col).mp hvalid
    have hrow : (row.toNat : Int) = row := Int.toNat_of_nonneg hr0
    have hcol : (col.toNat : Int) = col := Int.toNat_of_nonneg hc0
    have hrn : row.toNat < g.length := by omega
    have hcn : col.toNat < (g.getD row.toNat []).length := by
      rw [rect_row_length hrect hrn]
      omega
    refine ⟨row, col, hparse, hvalid, ?_, ?_, ?_, ?_⟩
    · rw [hst]
      exact getCell_setCell_self g row.toNat col.toNat 'X' hrn hcn
    · intro r' c' _ _ hne
      rw [hst]
      apply getCell_setCell_other
      rcases hne with hne | hne
      · left
        omega
      · right
        omega
    · rw [hst]
    · rw [hst]
      show (ps ++ [p]).countP _ = 1
      rw [List.countP_append, countP_seat_eq_zero_of_not_taken ps p.seat_number htaken]
      simp

/-- Witness for C5: booking seat `"1a"` for Ana on a fresh 1×2 grid succeeds
and the theorem's conclusions hold there. -/
theorem C5_book_success_frame_witness :
    rectangular [['O', 'O']] ∧
    (book_ticket [['O', 'O']] [] ("Ana".data) ("MH123".data) ("1a".data)).1 =
      .ok ⟨"Ana".data, "1A".data, "MH123".data⟩ ∧
    (∃ row col : Int,
      seat_to_index (("1A".data : Str)) = some (row, col) ∧
      is_valid_index [['O', 'O']] row col = true ∧
      getCell (book_ticket [['O', 'O']] [] ("Ana".data) ("MH123".data) ("1a".data)).2.1
        row.toNat col.toNat = 'X' ∧
      (∀ r' c' : Nat, r' < ([['O', 'O']] : Grid).length →
        c' < (([['O', 'O']] : Grid).headD []).length →
        ((r' : Int) ≠ row ∨ (c' : Int) ≠ col) →
        getCell (book_ticket [['O', 'O']] [] ("Ana".data) ("MH123".data) ("1a".data)).2.1 r' c' =
          getCell [['O', 'O']] r' c') ∧
      (book_ticket [['O', 'O']] [] ("Ana".data) ("MH123".data) ("1a".data)).2.2 =
        [] ++ [(⟨"Ana".data, "1A".data, "MH123".data⟩ : Passenger)] ∧
      (book_ticket [['O', 'O']] [] ("Ana".data) ("MH123".data) ("1a".data)).2.2.countP
        (fun q => pyUpper (pyStrip q.seat_number) =
          pyUpper (pyStrip (("1A".data : Str)))) = 1) := by
  have hok : (book_ticket [['O', 'O']] [] ("Ana".data) ("MH123".data) ("1a".data)).1 =
      .ok ⟨"Ana".data, "1A".data, "MH123".data⟩ := by
    rw [book_ticket]
    rw [count_step (g := [['O', 'O']]) (by simp) (by simp)]
    norm_num [pyStrip, pyUpper, bookCommit, seat_to_index, pyIsDigitStr, digitsVal,
      is_valid_index, getCell, is_seat_taken]
    decide
  refine ⟨by unfold rectangular; decide, hok, ?_⟩
  exact C5_book_success_frame [['O', 'O']] [] ("Ana".data) ("MH123".data) ("1a".data)
    ⟨"Ana".data, "1A".data, "MH123".data⟩ (by unfold rectangular; decide) hok

/-! ### Case analysis of `cancel_booking` (claim C6) -/

lemma getD_mem_of_lt {α : Type} (l : List α) (i : Nat) (d : α) (h : i < l.length) :
    l.getD i d ∈ l := by
  rw [List.getD_eq_getElem?_getD, List.getElem?_eq_getElem (by simpa using h)]
  exact List.getElem_mem _

lemma find_exact_lt (ps : List Passenger) (name : Str) :
    ∀ i ∈ find_passenger_by_exact_name ps name, i < ps.length := by
  intro i hi
  unfold find_passenger_by_exact_name at hi
  rw [List.mem_filter] at hi
  exact List.mem_range.mp hi.1

lemma cancelAt_result (g : Grid) (ps : List Passenger) (i : Nat) :
    (cancelAt g ps i).1 = .ok (ps.getD i ⟨[], [], []⟩) ∧
    (cancelAt g ps i).2.2 = ps.eraseIdx i := by
  unfold cancelAt
  exact ⟨rfl, rfl⟩

lemma cancelAt_grid_bad (g : Grid) (ps : List Passenger) (i : Nat)
    (h : seat_to_index (ps.getD i ⟨[], [], []⟩).seat_number = none ∨
      ∀ r c : Int, seat_to_index (ps.getD i ⟨[], [], []⟩).seat_number = some (r, c) →
        is_valid_index g r c = false) :
    (cancelAt g ps i).2.1 = g := by
  simp only [cancelAt]
  cases hs : seat_to_index (ps.getD i ⟨[], [], []⟩).seat_number with
  | none => rfl
  | some rc =>
    obtain ⟨r, c⟩ := rc
    rcases h with h | h
    · rw [h] at hs
      cases hs
    · simp [h r c hs]

lemma cancel_booking_cases (g : Grid) (ps : List Passenger) (nIn cIn : Str) :
    ((cancel_booking g ps nIn cIn).1.isOk = false ∧
      (cancel_booking g ps nIn cIn).2 = (g, ps)) ∨
    (∃ i, i < ps.length ∧ cancel_booking g ps nIn cIn = cancelAt g ps i) := by
  unfold cancel_booking
  by_cases h1 : (pyStrip nIn).isEmpty
  · left
    simp [h1, CancelResult.isOk]
  · have hlt := find_exact_lt ps (pyStrip nIn)
    by_cases h2 : (find_passenger_by_exact_name ps (pyStrip nIn)).isEmpty
    · left
      simp [h1, h2, CancelResult.isOk]
    · by_cases h3 : 1 < (find_passenger_by_exact_name ps (pyStrip nIn)).length
      · cases hc : pyToInt cIn with
        | none =>
          left
          simp [h1, h2, h3, hc, CancelResult.isOk]
        | some choice =>
          by_cases h4 : choice < 1 ∨
              ((find_passenger_by_exact_name ps (pyStrip nIn)).length : Int) < choice
          · left
            simp only [h1, h2, h3, hc, h4]
            simp [CancelResult.isOk]
          · right
            refine ⟨(find_passenger_by_exact_name ps (pyStrip nIn)).getD (choice - 1).toNat 0,
              ?_, ?_⟩
            · apply hlt
              apply getD_mem_of_lt
              push_neg at h4
              omega
            · simp [h1, h2, h3, hc, h4]
      · right
        refine ⟨(find_passenger_by_exact_name ps (pyStrip nIn)).getD 0 0, ?_, ?_⟩
        · apply hlt
          apply getD_mem_of_lt
          have h0 : find_passenger_by_exact_name ps (pyStrip nIn) ≠ [] := by
            intro hnil
            apply h2
            rw [hnil]
            rfl
          have := List.length_pos.mpr h0
          omega
        · simp [h1, h2, h3]

/-- C6: whenever cancellation selects a target passenger, if the stored seat
label fails to parse or is out of bounds, the grid is untouched while the
roster entry is still removed; and in no outcome does the grid change while
the target's entry stays in the roster. -/
theorem C6_cancel_corrupt_data (g : Grid) (ps : List Passenger) (nIn cIn : Str) :
    (∀ p, (cancel_booking g ps nIn cIn).1 = .ok p →
      ((seat_to_index p.seat_number = none ∨
          (∀ r c : Int, seat_to_index p.seat_number = some (r, c) →
            is_valid_index g r c = false)) →
        (cancel_booking g ps nIn cIn).2.1 = g) ∧
      ∃ i, i < ps.length ∧ ps.getD i ⟨[], [], []⟩ = p ∧
        (cancel_booking g ps nIn cIn).2.2 = ps.eraseIdx i) ∧
    ((cancel_booking g ps nIn cIn).2.1 ≠ g →
      ∃ i, i < ps.length ∧ (cancel_booking g ps nIn cIn).2.2 = ps.eraseIdx i) := by
  rcases cancel_booking_cases g ps nIn cIn with ⟨hko, hst⟩ | ⟨i, hi, heq⟩
  · constructor
    · intro p hp
      rw [hp] at hko
      simp [CancelResult.isOk] at hko
    · intro hg
      exact absurd (by rw [hst]) hg
  · have hres := cancelAt_result g ps i
    constructor
    · intro p hp
      rw [heq] at hp
      have hpt : ps.getD i ⟨[], [], []⟩ = p := by
        have h2 := hres.1.symm.trans hp
        injection h2
      constructor
      · intro hbad
        rw [heq]
        apply cancelAt_grid_bad
        rw [hpt]
        exact hbad
      · exact ⟨i, hi, hpt, by rw [heq]; exact hres.2⟩
    · intro _
      exact ⟨i, hi, by rw [heq]; exact hres.2⟩

/-- Witness for C6: cancelling Bob, whose stored seat label `"ZZ"` does not
parse, removes his roster entry but leaves the (booked) 1×1 grid untouched. -/
theorem C6_cancel_corrupt_data_witness :
    (cancel_booking [['X']] [⟨"Bob".data, "ZZ".data, "F".data⟩] ("Bob".data) []).1 =
      .ok ⟨"Bob".data, "ZZ".data, "F".data⟩ ∧
    (cancel_booking [['X']] [⟨"Bob".data, "ZZ".data, "F".data⟩] ("Bob".data) []).2.1 =
      [['X']] ∧
    (cancel_booking [['X']] [⟨"Bob".data, "ZZ".data, "F".data⟩] ("Bob".data) []).2.2 = [] := by
  have hmain := C6_cancel_corrupt_data [['X']] [⟨"Bob".data, "ZZ".data, "F".data⟩]
    ("Bob".data) []
  have hok : (cancel_booking [['X']] [⟨"Bob".data, "ZZ".data, "F".data⟩]
      ("Bob".data) []).1 = .ok ⟨"Bob".data, "ZZ".data, "F".data⟩ := by decide
  have h1 := (hmain.1 _ hok).1 (Or.inl (by decide))
  obtain ⟨i, hilt, _, hrm⟩ := (hmain.1 _ hok).2
  have hi0 : i = 0 := by
    simp only [List.length_singleton] at hilt
    omega
  subst hi0
  exact ⟨hok, h1, by simpa using hrm⟩

/-! ### Characterizing the recursive availability count (claim C9) -/

/-- Number of cells of the grid holding `v`. -/
def countCells (g : Grid) (v : Char) : Nat :=
  (g.map (fun row => row.countP (fun x => x = v))).sum

lemma getD_eq_getElem {α : Type} (l : List α) (i : Nat) (d : α) (h : i < l.length) :
    l.getD i d = l[i] := by
  rw [List.getD_eq_getElem?_getD, List.getElem?_eq_getElem (by simpa using h)]
  rfl

lemma count_row_split (g : Grid) (hrect : rectangular g) (r : Nat) (hr : r < g.length) :
    ∀ k c, (g.headD []).length - c ≤ k →
      recursive_count_available g r c =
        ((g.getD r []).drop c).countP (fun x => x = 'O') +
          recursive_count_available g (r + 1) 0 := by
  intro k
  induction k with
  | zero =>
    intro c hc
    rw [count_next_row (by omega) (by omega)]
    rw [List.drop_eq_nil_of_le (by rw [rect_row_length hrect hr]; omega)]
    simp
  | succ k ih =>
    intro c hc
    by_cases hcw : (g.headD []).length ≤ c
    · rw [count_next_row (by omega) hcw]
      rw [List.drop_eq_nil_of_le (by rw [rect_row_length hrect hr]; omega)]
      simp
    · rw [count_step (by omega) hcw]
      have hclt : c < (g.getD r []).length := by
        rw [rect_row_length hrect hr]
        omega
      rw [List.drop_eq_getElem_cons hclt, List.countP_cons, ih (c + 1) (by omega)]
      have hget : getCell g r c = (g.getD r [])[c] := by
        unfold getCell
        exact getD_eq_getElem _ _ _ hclt
      rw [hget]
      by_cases ho : (g.getD r [])[c] = 'O' <;> simp [ho] <;> omega

lemma count_from_row (g : Grid) (hrect : rectangular g) :
    ∀ k r, g.length - r ≤ k →
      recursive_count_available g r 0 =
        ((g.drop r).map (fun row => row.countP (fun x => x = 'O'))).sum := by
  intro k
  induction k with
  | zero =>
    intro r hr
    rw [count_stop (by omega), List.drop_eq_nil_of_le (by omega)]
    rfl
  | succ k ih =>
    intro r hr
    by_cases hlen : g.length ≤ r
    · rw [count_stop hlen, List.drop_eq_nil_of_le hlen]
      rfl
    · rw [count_row_split g hrect r (by omega) ((g.headD []).length) 0 (by omega)]
      rw [ih (r + 1) (by omega)]
      rw [List.drop_eq_getElem_cons (by omega : r < g.length)]
      rw [List.map_cons, List.sum_cons]
      rw [getD_eq_getElem _ _ _ (by omega : r < g.length)]
      simp

lemma count_eq_countCells (g : Grid) (hrect : rectangular g) :
    recursive_count_available g 0 0 = countCells g 'O' := by
  rw [count_from_row g hrect g.length 0 (by omega)]
  rfl

lemma countP_two_values (row : List Char)
    (h : ∀ cell ∈ row, cell = 'O' ∨ cell = 'X') :
    row.countP (fun x => x = 'O') + row.countP (fun x => x = 'X') = row.length := by
  induction row with
  | nil => rfl
  | cons a rest ih =>
    have ha := h a (by simp)
    have hrest := ih (fun cell hc => h cell (by simp [hc]))
    rcases ha with ha | ha <;> subst ha <;>
      simp [List.countP_cons, hrest] <;> omega

lemma sum_replicate_nat (n a : Nat) : (List.replicate n a).sum = n * a := by
  induction n with
  | zero => simp
  | succ m ih => simp [List.replicate, ih, Nat.succ_mul]; omega

lemma sum_map_length_rect (g : Grid) (hrect : rectangular g) :
    (g.map List.length).sum = g.length * (g.headD []).length := by
  have hrep : g.map List.length =
      List.replicate (g.map List.length).length ((g.headD []).length) := by
    apply List.eq_replicate_of_mem
    intro b hb
    rw [List.mem_map] at hb
    obtain ⟨row, hrow, hlen⟩ := hb
    rw [← hlen]
    exact hrect row hrow
  rw [hrep, sum_replicate_nat]
  simp

lemma countCells_add (g : Grid)
    (h : ∀ row ∈ g, ∀ cell ∈ row, cell = 'O' ∨ cell = 'X') :
    countCells g 'O' + countCells g 'X' = (g.map List.length).sum := by
  unfold countCells
  induction g with
  | nil => rfl
  | cons row rest ih =>
    have hrow := countP_two_values row (h row (by simp))
    have hrest := ih (fun r2 hr2 => h r2 (by simp [hr2]))
    simp only [List.map_cons, List.sum_cons]
    omega

/-- C9: on a rectangular grid the recursive availability count equals the
number of `'O'` cells, and when every cell is `'O'` or `'X'` it together with
the number of `'X'` cells accounts for all rows*cols cells. -/
theorem C9_count_available (g : Grid) (hrect : rectangular g) :
    recursive_count_available g 0 0 = countCells g 'O' ∧
    ((∀ row ∈ g, ∀ cell ∈ row, cell = 'O' ∨ cell = 'X') →
      recursive_count_available g 0 0 + countCells g 'X' =
        g.length * (g.headD []).length) := by
  refine ⟨count_eq_countCells g hrect, ?_⟩
  intro h
  rw [count_eq_countCells g hrect, countCells_add g h, sum_map_length_rect g hrect]

/-- Witness for C9 on the concrete grid `[['O','X'],['X','X']]`. -/
theorem C9_count_available_witness :
    rectangular [['O', 'X'], ['X', 'X']] ∧
    recursive_count_available [['O', 'X'], ['X', 'X']] 0 0 =
      countCells [['O', 'X'], ['X', 'X']] 'O' ∧
    recursive_count_available [['O', 'X'], ['X', 'X']] 0 0 +
      countCells [['O', 'X'], ['X', 'X']] 'X' =
      ([['O', 'X'], ['X', 'X']] : Grid).length *
        (([['O', 'X'], ['X', 'X']] : Grid).headD []).length := by
  have h := C9_count_available [['O', 'X'], ['X', 'X']] (by unfold rectangular; decide)
  exact ⟨by unfold rectangular; decide, h.1, h.2 (by decide)⟩

/-! ### Characterizing the first-available scan (claim C7) -/

/-- Row-major specification of `recursive_find_first_available g r c`: a found
cell is the first `'O'` at-or-after `(r, c)`, and `none` means no `'O'` cell
lies at-or-after `(r, c)`. -/
def FindSpec (g : Grid) (r c : Nat) : Prop :=
  (∀ i j, recursive_find_first_available g r c = some (i, j) →
    (r < i ∨ (r = i ∧ c ≤ j)) ∧ i < g.length ∧ j < (g.headD []).length ∧
    getCell g i j = 'O' ∧
    ∀ i' j', i' < g.length → j' < (g.headD []).length →
      (r < i' ∨ (r = i' ∧ c ≤ j')) → (i' < i ∨ (i' = i ∧ j' < j)) →
      getCell g i' j' ≠ 'O') ∧
  (recursive_find_first_available g r c = none →
    ∀ i' j', i' < g.length → j' < (g.headD []).length →
      (r < i' ∨ (r = i' ∧ c ≤ j')) → getCell g i' j' ≠ 'O')

lemma findSpec_stop (g : Grid) (r c : Nat) (h : g.length ≤ r) : FindSpec g r c := by
  constructor
  · intro i j hf
    rw [find_stop h] at hf
    cases hf
  · intro _ i' j' hi' _ hge _
    omega

lemma findSpec_of_next_row (g : Grid) (r c : Nat) (hlen : ¬ g.length ≤ r)
    (hcw : (g.headD []).length ≤ c) (hnext : FindSpec g (r + 1) 0) : FindSpec g r c := by
  have heq := find_next_row hlen hcw
  constructor
  · intro i j hf
    rw [heq] at hf
    obtain ⟨hge, hi, hj, hcell, hmin⟩ := hnext.1 i j hf
    refine ⟨by omega, hi, hj, hcell, ?_⟩
    intro i' j' hi' hj' hge' hlt'
    apply hmin i' j' hi' hj'
    · rcases hge' with h | ⟨h1, h2⟩
      · omega
      · omega
    · exact hlt'
  · intro hf i' j' hi' hj' hge'
    rw [heq] at hf
    apply hnext.2 hf i' j' hi' hj'
    rcases hge' with h | ⟨h1, h2⟩
    · omega
    · omega

lemma findSpec_of_step (g : Grid) (r c : Nat) (hlen : ¬ g.length ≤ r)
    (hcw : ¬ (g.headD []).length ≤ c) (hcell : getCell g r c ≠ 'O')
    (hnext : FindSpec g r (c + 1)) : FindSpec g r c := by
  have heq := find_step hlen hcw hcell
  have hframe : ∀ i' j' : Nat, (r < i' ∨ (r = i' ∧ c ≤ j')) →
      (i' = r ∧ j' = c) ∨ (r < i' ∨ (r = i' ∧ c + 1 ≤ j')) := by
    intro i' j' h
    omega
  constructor
  · intro i j hf
    rw [heq] at hf
    obtain ⟨hge, hi, hj, hc2, hmin⟩ := hnext.1 i j hf
    refine ⟨by omega, hi, hj, hc2, ?_⟩
    intro i' j' hi' hj' hge' hlt'
    rcases hframe i' j' hge' with ⟨h1, h2⟩ | hge2
    · subst h1
      subst h2
      exact hcell
    · exact hmin i' j' hi' hj' hge2 hlt'
  · intro hf i' j' hi' hj' hge'
    rw [heq] at hf
    rcases hframe i' j' hge' with ⟨h1, h2⟩ | hge2
    · subst h1
      subst h2
      exact hcell
    · exact hnext.2 hf i' j' hi' hj' hge2

lemma findSpec_here (g : Grid) (r c : Nat) (hlen : ¬ g.length ≤ r)
    (hcw : ¬ (g.headD []).length ≤ c) (hcell : getCell g r c = 'O') : FindSpec g r c := by
  have heq := find_here hlen hcw hcell
  constructor
  · intro i j hf
    rw [heq] at hf
    have hij : r = i ∧ c = j := by
      have h2 := Option.some_injective _ hf
      exact ⟨congrArg Prod.fst h2, congrArg Prod.snd h2⟩
    obtain ⟨hi, hj⟩ := hij
    subst hi
    subst hj
    refine ⟨by omega, by omega, by omega, hcell, ?_⟩
    intro i' j' _ _ hge' hlt'
    omega
  · intro hf
    rw [heq] at hf
    cases hf

lemma findSpec_all (g : Grid) (_hrect : rectangular g) :
    ∀ m r, g.length - r ≤ m → ∀ c, FindSpec g r c := by
  intro m
  induction m with
  | zero =>
    intro r hr c
    exact findSpec_stop g r c (by omega)
  | succ m ihm =>
    intro r hr c
    by_cases hlen : g.length ≤ r
    · exact findSpec_stop g r c hlen
    · have inner : ∀ n c, (g.headD []).length - c ≤ n → FindSpec g r c := by
        intro n
        induction n with
        | zero =>
          intro c hc
          exact findSpec_of_next_row g r c hlen (by omega) (ihm (r + 1) (by omega) 0)
        | succ n ihn =>
          intro c hc
          by_cases hcw : (g.headD []).length ≤ c
          · exact findSpec_of_next_row g r c hlen hcw (ihm (r + 1) (by omega) 0)
          · by_cases hcell : getCell g r c = 'O'
            · exact findSpec_here g r c hlen hcw hcell
            · exact findSpec_of_step g r c hlen hcw hcell (ihn (c + 1) (by omega))
      exact inner ((g.headD []).length - c) c (by omega)

/-- C7: on a rectangular grid the scan returns an `'O'` cell that is first in
row-major order (everything strictly earlier is not `'O'`), and returns `none`
exactly when no cell is `'O'`. -/
theorem C7_first_available (g : Grid) (hrect : rectangular g) :
    (∀ r c, recursive_find_first_available g 0 0 = some (r, c) →
      r < g.length ∧ c < (g.headD []).length ∧ getCell g r c = 'O' ∧
      ∀ r' c', r' < g.length → c' < (g.headD []).length →
        (r' < r ∨ (r' = r ∧ c' < c)) → getCell g r' c' ≠ 'O') ∧
    (recursive_find_first_available g 0 0 = none ↔
      ∀ r c, r < g.length → c < (g.headD []).length → getCell g r c ≠ 'O') := by
  have hspec := findSpec_all g hrect g.length 0 (by omega) 0
  constructor
  · intro r c hf
    obtain ⟨_, hi, hj, hcell, hmin⟩ := hspec.1 r c hf
    refine ⟨hi, hj, hcell, ?_⟩
    intro r' c' hr' hc' hlt
    exact hmin r' c' hr' hc' (by omega) hlt
  · constructor
    · intro hf r c hr hc
      exact hspec.2 hf r c hr hc (by omega)
    · intro hall
      cases hf : recursive_find_first_available g 0 0 with
      | none => rfl
      | some rc =>
        obtain ⟨r, c⟩ := rc
        obtain ⟨_, hi, hj, hcell, _⟩ := hspec.1 r c hf
        exact absurd hcell (hall r c hi hj)

/-- Witness for C7 on the concrete grid `[['X','O']]`, where the scan finds
`(0, 1)`. -/
theorem C7_first_available_witness :
    rectangular [['X', 'O']] ∧
    (∀ r c, recursive_find_first_available [['X', 'O']] 0 0 = some (r, c) →
      r < ([['X', 'O']] : Grid).length ∧ c < (([['X', 'O']] : Grid).headD []).length ∧
      getCell [['X', 'O']] r c = 'O' ∧
      ∀ r' c', r' < ([['X', 'O']] : Grid).length →
        c' < (([['X', 'O']] : Grid).headD []).length →
        (r' < r ∨ (r' = r ∧ c' < c)) → getCell [['X', 'O']] r' c' ≠ 'O') ∧
    (recursive_find_first_available [['X', 'O']] 0 0 = none ↔
      ∀ r c, r < ([['X', 'O']] : Grid).length →
        c < (([['X', 'O']] : Grid).headD []).length → getCell [['X', 'O']] r c ≠ 'O') := by
  have h := C7_first_available [['X', 'O']] (by unfold rectangular; decide)
  exact ⟨by unfold rectangular; decide, h.1, h.2⟩

/-! ### Termination and index safety of the recursive scans (claim C10)

The fuel-indexed variants below return `none` either when the fuel runs out or
when the cell access `seats[r][c]` would fall outside the *actual* row `r`
(the Python `IndexError`: the loop bound is the length of the *first* row).
Producing `some` therefore certifies both termination and in-bounds indexing. -/

/-- Fuel-indexed, access-checked form of `recursive_count_available`. -/
def countSafe (g : Grid) : Nat → Nat → Nat → Option Nat
  | 0, _, _ => none
  | fuel + 1, r, c =>
    if g.length ≤ r then some 0
    else if (g.headD []).length ≤ c then countSafe g fuel (r + 1) 0
    else if c < (g.getD r []).length then
      (countSafe g fuel r (c + 1)).map
        (fun n => (if getCell g r c = 'O' then 1 else 0) + n)
    else none

/-- Fuel-indexed, access-checked form of `recursive_find_first_available`. -/
def findSafe (g : Grid) : Nat → Nat → Nat → Option (Option (Nat × Nat))
  | 0, _, _ => none
  | fuel + 1, r, c =>
    if g.length ≤ r then some none
    else if (g.headD []).length ≤ c then findSafe g fuel (r + 1) 0
    else if c < (g.getD r []).length then
      (if getCell g r c = 'O' then some (some (r, c)) else findSafe g fuel r (c + 1))
    else none

lemma countSafe_term (g : Grid) (hrect : rectangular g) :
    ∀ m r, g.length - r ≤ m → ∀ c,
      ∃ fuel, countSafe g fuel r c = some (recursive_count_available g r c) := by
  intro m
  induction m with
  | zero =>
    intro r hr c
    refine ⟨1, ?_⟩
    rw [count_stop (by omega)]
    simp [countSafe, (by omega : g.length ≤ r)]
  | succ m ihm =>
    intro r hr c
    by_cases hlen : g.length ≤ r
    · refine ⟨1, ?_⟩
      rw [count_stop hlen]
      simp [countSafe, hlen]
    · have inner : ∀ n c, (g.headD []).length - c ≤ n →
          ∃ fuel, countSafe g fuel r c = some (recursive_count_available g r c) := by
        intro n
        induction n with
        | zero =>
          intro c hc
          obtain ⟨f, hf⟩ := ihm (r + 1) (by omega) 0
          refine ⟨f + 1, ?_⟩
          rw [count_next_row hlen (by omega)]
          have hcw' : ((g.head?).getD []).length ≤ c := by
            rw [← List.headD_eq_head?]
            omega
          simp [countSafe, hlen, hcw', hf]
        | succ n ihn =>
          intro c hc
          by_cases hcw : (g.headD []).length ≤ c
          · obtain ⟨f, hf⟩ := ihm (r + 1) (by omega) 0
            refine ⟨f + 1, ?_⟩
            rw [count_next_row hlen hcw]
            have hcw' : ((g.head?).getD []).length ≤ c := by
              rw [← List.headD_eq_head?]
              omega
            simp [countSafe, hlen, hcw', hf]
          · obtain ⟨f, hf⟩ := ihn (c + 1) (by omega)
            refine ⟨f + 1, ?_⟩
            rw [count_step hlen hcw]
            have hrow : c < (g.getD r []).length := by
              rw [rect_row_length hrect (by omega)]
              omega
            have hcw' : ¬ ((g.head?).getD []).length ≤ c := by
              rw [← List.headD_eq_head?]
              omega
            have hrow' : c < (g[r]?.getD []).length := by
              rw [← List.getD_eq_getElem?_getD]
              exact hrow
            simp [countSafe, hlen, hcw', hrow', hf]
      exact inner ((g.headD []).length - c) c (by omega)

lemma findSafe_term (g : Grid) (hrect : rectangular g) :
    ∀ m r, g.length - r ≤ m → ∀ c,
      ∃ fuel, findSafe g fuel r c = some (recursive_find_first_available g r c) := by
  intro m
  induction m with
  | zero =>
    intro r hr c
    refine ⟨1, ?_⟩
    rw [find_stop (by omega)]
    simp [findSafe, (by omega : g.length ≤ r)]
  | succ m ihm =>
    intro r hr c
    by_cases hlen : g.length ≤ r
    · refine ⟨1, ?_⟩
      rw [find_stop hlen]
      simp [findSafe, hlen]
    · have inner : ∀ n c, (g.headD []).length - c ≤ n →
          ∃ fuel, findSafe g fuel r c = some (recursive_find_first_available g r c) := by
        intro n
        induction n with
        | zero =>
          intro c hc
          obtain ⟨f, hf⟩ := ihm (r + 1) (by omega) 0
          refine ⟨f + 1, ?_⟩
          rw [find_next_row hlen (by omega)]
          have hcw' : ((g.head?).getD []).length ≤ c := by
            rw [← List.headD_eq_head?]
            omega
          simp [findSafe, hlen, hcw', hf]
        | succ n ihn =>
          intro c hc
          by_cases hcw : (g.headD []).length ≤ c
          · obtain ⟨f, hf⟩ := ihm (r + 1) (by omega) 0
            refine ⟨f + 1, ?_⟩
            rw [find_next_row hlen hcw]
            have hcw' : ((g.head?).getD []).length ≤ c := by
              rw [← List.headD_eq_head?]
              omega
            simp [findSafe, hlen, hcw', hf]
          · have hrow : c < (g.getD r []).length := by
              rw [rect_row_length hrect (by omega)]
              omega
            have hcw' : ¬ ((g.head?).getD []).length ≤ c := by
              rw [← List.headD_eq_head?]
              omega
            have hrow' : c < (g[r]?.getD []).length := by
              rw [← List.getD_eq_getElem?_getD]
              exact hrow
            by_cases hcell : getCell g r c = 'O'
            · refine ⟨1, ?_⟩
              rw [find_here hlen hcw hcell]
              simp [findSafe, hlen, hcw', hrow', hcell]
            · obtain ⟨f, hf⟩ := ihn (c + 1) (by omega)
              refine ⟨f + 1, ?_⟩
              rw [find_step hlen hcw hcell]
              simp [findSafe, hlen, hcw', hrow', hcell, hf]
      exact inner ((g.headD []).length - c) c (by omega)

/-- C10: on a rectangular grid (any grid whose rows all have the first row's
length, including zero rows or zero columns) both recursive scans terminate
from any start cell with every access in bounds: the access-checked,
fuel-indexed variants reach the recursive functions' values on some finite
fuel. -/
theorem C10_scans_terminate (g : Grid) (hrect : rectangular g) (r c : Nat) :
    (∃ fuel, countSafe g fuel r c = some (recursive_count_available g r c)) ∧
    (∃ fuel, findSafe g fuel r c = some (recursive_find_first_available g r c)) :=
  ⟨countSafe_term g hrect g.length r (by omega) c,
   findSafe_term g hrect g.length r (by omega) c⟩

/-- Witness for C10 on the concrete grid `[['X','O'],['O','O']]` at `(0, 0)`. -/
theorem C10_scans_terminate_witness :
    rectangular [['X', 'O'], ['O', 'O']] ∧
    (∃ fuel, countSafe [['X', 'O'], ['O', 'O']] fuel 0 0 =
      some (recursive_count_available [['X', 'O'], ['O', 'O']] 0 0)) ∧
    (∃ fuel, findSafe [['X', 'O'], ['O', 'O']] fuel 0 0 =
      some (recursive_find_first_available [['X', 'O'], ['O', 'O']] 0 0)) := by
  have h := C10_scans_terminate [['X', 'O'], ['O', 'O']] (by unfold rectangular; decide) 0 0
  exact ⟨by unfold rectangular; decide, h.1, h.2⟩

/-! ### Load is idempotent (claim C8) -/

lemma load_lines_sameShape :
    ∀ (lines : List Str) (g : Grid) (acc : List Passenger),
      sameShape (load_lines g acc lines).1 g := by
  intro lines
  induction lines with
  | nil => intro g acc; exact sameShape_refl g
  | cons line rest ih =>
    intro g acc
    unfold load_lines
    by_cases h1 : (pyStrip line).isEmpty
    · simpa [h1] using ih g acc
    · cases h2 : Passenger.from_line line with
      | none => simpa [h1, h2] using ih g acc
      | some p =>
        cases h3 : seat_to_index p.seat_number with
        | none => simpa [h1, h2, h3] using ih g acc
        | some rc =>
          obtain ⟨r, c⟩ := rc
          by_cases h4 : is_valid_index g r c
          · have := ih (setCell g r.toNat c.toNat 'X') (acc ++ [p])
            have hs := sameShape_setCell g r.toNat c.toNat 'X'
            simpa [h1, h2, h3, h4] using sameShape_trans this hs
          · simpa [h1, h2, h3, h4] using ih g acc

/-- C8: loading the same existing file twice in succession produces the same
grid and the same roster as loading it once, because each load resets the grid
before replaying the file. -/
theorem C8_load_idempotent (g : Grid) (content : Str) (_hrect : rectangular g) :
    load_bookings (load_bookings g (some content)).1 (some content) =
      load_bookings g (some content) := by
  unfold load_bookings
  have hshape : sameShape (load_lines (reset_all g) [] (pySplitLines content)).1 g :=
    sameShape_trans (load_lines_sameShape (pySplitLines content) (reset_all g) [])
      (sameShape_reset_all g)
  rw [reset_all_eq_of_sameShape hshape]

/-- Witness for C8: two loads of the file `"A,1A,F\n"` on a fresh 1×1 grid
agree with one load. -/
theorem C8_load_idempotent_witness :
    rectangular [['O']] ∧
    load_bookings (load_bookings [['O']] (some ("A,1A,F\n".data))).1
        (some ("A,1A,F\n".data)) =
      load_bookings [['O']] (some ("A,1A,F\n".data)) := by
  refine ⟨by unfold rectangular; decide, ?_⟩
  exact C8_load_idempotent [['O']] ("A,1A,F\n".data) (by unfold rectangular; decide)

/-! ### Strings that survive the persistence round trip (claim C3) -/

/-- A field the line format can carry faithfully: nonempty, trim-invariant,
and free of commas and line breaks. -/
def goodField (f : Str) : Prop :=
  f ≠ [] ∧ pyStrip f = f ∧ ∀ ch ∈ f, ch ≠ ',' ∧ ch ≠ '\n' ∧ ch ≠ '\r'

lemma headD_reverse (l : Str) (d : Char) : l.reverse.headD d = l.getLastD d := by
  rw [List.headD_eq_head?, List.head?_reverse, List.getLastD_eq_getLast?]

lemma dropWhile_eq_self_of_headD (p : Char → Bool) (l : Str)
    (h : l = [] ∨ p (l.headD ' ') = false) : l.dropWhile p = l := by
  cases l with
  | nil => rfl
  | cons a rest =>
    rcases h with h | h
    · cases h
    · rw [List.dropWhile_cons_of_neg]
      simpa using h

lemma headD_of_dropWhile_eq_self (p : Char → Bool) (l : Str)
    (h : l.dropWhile p = l) : l = [] ∨ p (l.headD ' ') = false := by
  cases l with
  | nil => exact Or.inl rfl
  | cons a rest =>
    right
    by_cases hpa : p a = true
    · rw [List.dropWhile_cons_of_pos hpa] at h
      have hlen := congrArg List.length h
      have hle := (List.dropWhile_sublist (l := rest) p).length_le
      simp at hlen
      omega
    · simpa using hpa

lemma pyStrip_eq_self_of_ends (l : Str)
    (h1 : l = [] ∨ (l.headD ' ').isWhitespace = false)
    (h2 : l = [] ∨ (l.getLastD ' ').isWhitespace = false) : pyStrip l = l := by
  unfold pyStrip
  rw [dropWhile_eq_self_of_headD _ _ h1]
  rw [dropWhile_eq_self_of_headD _ l.reverse ?_, List.reverse_reverse]
  rcases h2 with h2 | h2
  · subst h2
    exact Or.inl rfl
  · right
    rw [headD_reverse]
    exact h2

lemma ends_of_pyStrip_eq_self (l : Str) (h : pyStrip l = l) :
    (l = [] ∨ (l.headD ' ').isWhitespace = false) ∧
    (l = [] ∨ (l.getLastD ' ').isWhitespace = false) := by
  unfold pyStrip at h
  have hlen := congrArg List.length h
  simp only [List.length_reverse] at hlen
  have hle1 := (List.dropWhile_sublist (l := l) Char.isWhitespace).length_le
  have hle2 :=
    (List.dropWhile_sublist (l := (l.dropWhile Char.isWhitespace).reverse)
      Char.isWhitespace).length_le
  simp only [List.length_reverse] at hle2
  have hlen1 : (l.dropWhile Char.isWhitespace).length = l.length := by omega
  have hd1 : l.dropWhile Char.isWhitespace = l :=
    (List.dropWhile_sublist Char.isWhitespace).eq_of_length hlen1
  constructor
  · exact headD_of_dropWhile_eq_self _ _ hd1
  · rw [hd1] at hlen hle2
    have hlen2 : (l.reverse.dropWhile Char.isWhitespace).length = l.reverse.length := by
      simp only [List.length_reverse]
      omega
    have hd2 : l.reverse.dropWhile Char.isWhitespace = l.reverse :=
      (List.dropWhile_sublist Char.isWhitespace).eq_of_length hlen2
    have := headD_of_dropWhile_eq_self _ _ hd2
    rcases this with h2 | h2
    · left
      simpa using h2
    · right
      rw [headD_reverse] at h2
      exact h2

lemma headD_append_left {α : Type} (a b : List α) (d : α) (h : a ≠ []) :
    (a ++ b).headD d = a.headD d := by
  cases a with
  | nil => exact absurd rfl h
  | cons x rest => rfl

lemma getLastD_append_right : ∀ (a b : Str) (d : Char), b ≠ [] →
    (a ++ b).getLastD d = b.getLastD d := by
  intro a
  induction a with
  | nil => intro b d _; rfl
  | cons x a' ih =>
    intro b d h
    show (x :: (a' ++ b)).getLastD d = b.getLastD d
    rw [List.getLastD_cons, ih b x h]
    cases b with
    | nil => exact absurd rfl h
    | cons y rest => rfl

lemma splitOnPred_no_sep (p : Char → Bool) :
    ∀ a : Str, (∀ ch ∈ a, p ch = false) → splitOnPred p a = [a] := by
  intro a
  induction a with
  | nil => intro _; rfl
  | cons x a' ih =>
    intro h
    have hx := h x (by simp)
    unfold splitOnPred
    rw [ih (fun ch hc => h ch (by simp [hc]))]
    simp [hx]

lemma splitOnPred_sep (p : Char → Bool) :
    ∀ (a : Str) (sep : Char) (rest : Str), (∀ ch ∈ a, p ch = false) → p sep = true →
      splitOnPred p (a ++ sep :: rest) = a :: splitOnPred p rest := by
  intro a
  induction a with
  | nil =>
    intro sep rest _ hsep
    show splitOnPred p (sep :: rest) = [] :: splitOnPred p rest
    simp only [splitOnPred]
    simp [hsep]
  | cons x a' ih =>
    intro sep rest h hsep
    have hx := h x (by simp)
    show splitOnPred p (x :: (a' ++ sep :: rest)) = (x :: a') :: splitOnPred p rest
    simp only [splitOnPred]
    rw [ih sep rest (fun ch hc => h ch (by simp [hc])) hsep]
    simp [hx]

lemma getLastD_default_irrel (l : Str) (h : l ≠ []) (d1 d2 : Char) :
    l.getLastD d1 = l.getLastD d2 := by
  cases l with
  | nil => exact absurd rfl h
  | cons a rest => rw [List.getLastD_cons, List.getLastD_cons]

lemma pyStrip_to_line (p : Passenger)
    (hn : goodField p.name) (hf : goodField p.flight_code) :
    pyStrip p.to_line = p.to_line := by
  obtain ⟨hn1, hn2, _⟩ := hn
  obtain ⟨hf1, hf2, _⟩ := hf
  apply pyStrip_eq_self_of_ends
  · right
    unfold Passenger.to_line
    rw [headD_append_left _ _ _ hn1]
    exact ((ends_of_pyStrip_eq_self _ hn2).1).resolve_left hn1
  · right
    unfold Passenger.to_line
    rw [getLastD_append_right p.name (',' :: (p.seat_number ++ (',' :: p.flight_code))) ' '
      (by simp)]
    rw [List.getLastD_cons]
    rw [getLastD_append_right p.seat_number (',' :: p.flight_code) ',' (by simp)]
    rw [List.getLastD_cons]
    rw [getLastD_default_irrel p.flight_code hf1 ',' ' ']
    exact ((ends_of_pyStrip_eq_self _ hf2).2).resolve_left hf1

lemma to_line_ne_nil (p : Passenger) (hn : goodField p.name) : p.to_line ≠ [] := by
  unfold Passenger.to_line
  intro h
  rcases List.append_eq_nil.mp h with ⟨h1, _⟩
  exact hn.1 h1

lemma from_line_to_line (p : Passenger)
    (hn : goodField p.name) (hs : goodField p.seat_number) (hf : goodField p.flight_code) :
    Passenger.from_line p.to_line = some p := by
  have hline := pyStrip_to_line p hn hf
  obtain ⟨hn1, hn2, hn3⟩ := hn
  obtain ⟨hs1, hs2, hs3⟩ := hs
  obtain ⟨hf1, hf2, hf3⟩ := hf
  have hsplit : splitOnComma p.to_line =
      [p.name, p.seat_number, p.flight_code] := by
    unfold splitOnComma Passenger.to_line
    rw [splitOnPred_sep _ _ _ _ (fun ch hc => by simp [(hn3 ch hc).1]) (by simp)]
    rw [splitOnPred_sep _ _ _ _ (fun ch hc => by simp [(hs3 ch hc).1]) (by simp)]
    rw [splitOnPred_no_sep _ _ (fun ch hc => by simp [(hf3 ch hc).1])]
  unfold Passenger.from_line
  rw [hline, hsplit]
  simp [hn1, hn2, hs1, hs2, hf1, hf2]

lemma pySplitLines_save (ps : List Passenger)
    (h : ∀ p ∈ ps, goodField p.name ∧ goodField p.seat_number ∧ goodField p.flight_code) :
    pySplitLines (save_bookings ps) = ps.map Passenger.to_line ++ [[]] := by
  induction ps with
  | nil => rfl
  | cons p rest ih =>
    obtain ⟨⟨_, _, hn3⟩, ⟨_, _, hs3⟩, ⟨_, _, hf3⟩⟩ := h p (by simp)
    have hNoNl : ∀ ch ∈ p.to_line, (ch = '\n' || ch = '\r') = false := by
      intro ch hc
      unfold Passenger.to_line at hc
      rw [List.mem_append] at hc
      rcases hc with hc | hc
      · simp [(hn3 ch hc).2.1, (hn3 ch hc).2.2]
      · rw [List.mem_cons] at hc
        rcases hc with hc | hc
        · subst hc
          simp
        · rw [List.mem_append] at hc
          rcases hc with hc | hc
          · simp [(hs3 ch hc).2.1, (hs3 ch hc).2.2]
          · rw [List.mem_cons] at hc
            rcases hc with hc | hc
            · subst hc
              simp
            · simp [(hf3 ch hc).2.1, (hf3 ch hc).2.2]
    have hsave : save_bookings (p :: rest) =
        p.to_line ++ '\n' :: save_bookings rest := by
      unfold save_bookings
      simp
    rw [hsave]
    unfold pySplitLines
    rw [splitOnPred_sep _ _ _ _ hNoNl (by simp)]
    have ih2 := ih (fun q hq => h q (by simp [hq]))
    unfold pySplitLines at ih2
    rw [ih2]
    simp

/-! ### Closed form of the load loop -/

/-- The record a file line contributes on a grid of `R` rows and `W` columns:
`none` when the line is blank, fails `from_line`, fails `seat_to_index`, or is
out of bounds; otherwise the passenger together with its cell. -/
def lineRecord (R W : Nat) (line : Str) : Option (Passenger × Int × Int) :=
  if (pyStrip line).isEmpty then none
  else
    match Passenger.from_line line with
    | none => none
    | some p =>
      match seat_to_index p.seat_number with
      | none => none
      | some (r, c) =>
        if 0 ≤ r ∧ r < (R : Int) ∧ 0 ≤ c ∧ c < (W : Int) then some (p, r, c) else none

/-- Records of a file's lines that survive all the load-time checks. -/
def survivors (R W : Nat) (lines : List Str) : List (Passenger × Int × Int) :=
  lines.filterMap (lineRecord R W)

/-- Mark every surviving record's cell `'X'`, in file order. -/
def markAll (g : Grid) (recs : List (Passenger × Int × Int)) : Grid :=
  recs.foldl (fun g2 rec => setCell g2 rec.2.1.toNat rec.2.2.toNat 'X') g

lemma survivors_cons (R W : Nat) (line : Str) (rest : List Str) :
    survivors R W (line :: rest) =
      match lineRecord R W line with
      | none => survivors R W rest
      | some rec => rec :: survivors R W rest := by
  unfold survivors
  rw [List.filterMap_cons]
  cases lineRecord R W line <;> rfl

lemma headD_eq_getD_zero {α : Type} (l : List α) (d : α) : l.headD d = l.getD 0 d := by
  cases l <;> rfl

lemma load_lines_eq :
    ∀ (lines : List Str) (g : Grid) (acc : List Passenger),
      load_lines g acc lines =
        (markAll g (survivors g.length (g.headD []).length lines),
         acc ++ (survivors g.length (g.headD []).length lines).map Prod.fst) := by
  intro lines
  induction lines with
  | nil =>
    intro g acc
    simp [load_lines, survivors, markAll]
  | cons line rest ih =>
    intro g acc
    by_cases h1 : (pyStrip line).isEmpty
    · have hrec : lineRecord g.length (g.headD []).length line = none := by
        simp [lineRecord, h1]
      simp only [load_lines, h1, if_true, survivors_cons, hrec]
      exact ih g acc
    · cases h2 : Passenger.from_line line with
      | none =>
        have hrec : lineRecord g.length (g.headD []).length line = none := by
          simp [lineRecord, h1, h2]
        simp only [load_lines, h1, if_false, h2, survivors_cons, hrec]
        simp only [Bool.false_eq_true, if_false]
        exact ih g acc
      | some p =>
        cases h3 : seat_to_index p.seat_number with
        | none =>
          have hrec : lineRecord g.length (g.headD []).length line = none := by
            simp [lineRecord, h1, h2, h3]
          simp only [load_lines, h1, h2, h3, survivors_cons, hrec]
          simp only [Bool.false_eq_true, if_false]
          exact ih g acc
        | some rc =>
          obtain ⟨r, c⟩ := rc
          by_cases h4 : is_valid_index g r c = true
          · have hcond := (is_valid_index_iff g r c).mp h4
            have hcond' : c < (((g.head?).getD [] : List Char).length : Int) := by
              rw [← List.headD_eq_head?]
              exact hcond.2.2.2
            have hrec : lineRecord g.length (g.headD []).length line = some (p, r, c) := by
              simp [lineRecord, h1, h2, h3, hcond.1, hcond.2.1, hcond.2.2.1, hcond']
            have hlen : (setCell g r.toNat c.toNat 'X').length = g.length :=
              length_setCell g r.toNat c.toNat 'X'
            have hw : ((setCell g r.toNat c.toNat 'X').headD []).length =
                (g.headD []).length := by
              rw [headD_eq_getD_zero, headD_eq_getD_zero]
              exact (sameShape_setCell g r.toNat c.toNat 'X').2 0
            simp only [load_lines, h1, h2, h3, h4, survivors_cons, hrec]
            simp only [Bool.false_eq_true, if_false, Bool.not_true]
            rw [ih (setCell g r.toNat c.toNat 'X') (acc ++ [p])]
            rw [hlen, hw]
            simp only [markAll, List.foldl_cons, List.map_cons]
            simp
          · have hrec : lineRecord g.length (g.headD []).length line = none := by
              unfold lineRecord
              rw [if_neg (by simpa using h1)]
              simp only [h2, h3]
              rw [if_neg (fun hcond => h4 ((is_valid_index_iff g r c).mpr hcond))]
            simp only [load_lines, h1, h2, h3, h4, survivors_cons, hrec]
            simp only [Bool.false_eq_true, if_false, Bool.not_false, if_true]
            exact ih g acc

/-! ### Marking survivors on a reset grid -/

lemma rectangular_iff_getD (g : Grid) :
    rectangular g ↔ ∀ i, i < g.length → (g.getD i []).length = (g.headD []).length := by
  constructor
  · intro h i hi
    exact rect_row_length h hi
  · intro h row hrow
    obtain ⟨i, hi, heq⟩ := List.getElem_of_mem hrow
    have : g.getD i [] = row := by
      rw [getD_eq_getElem _ _ _ hi]
      exact heq
    rw [← this]
    exact h i hi

lemma rectangular_of_sameShape {g g' : Grid} (hs : sameShape g' g) (h : rectangular g) :
    rectangular g' := by
  rw [rectangular_iff_getD] at h ⊢
  intro i hi
  have hw : (g'.headD []).length = (g.headD []).length := by
    rw [headD_eq_getD_zero, headD_eq_getD_zero]
    exact hs.2 0
  rw [hs.2 i, hw]
  apply h i
  rw [← hs.1]
  exact hi

lemma getCell_reset_all (g : Grid) (r c : Nat) (hr : r < g.length)
    (hc : c < (g.getD r []).length) : getCell (reset_all g) r c = 'O' := by
  unfold getCell reset_all
  have h1 : (g.map (fun row => row.map (fun _ => 'O'))).getD r [] =
      (g.getD r []).map (fun _ => 'O') := by
    rw [List.getD_eq_getElem?_getD, List.getElem?_map,
      List.getElem?_eq_getElem (by simpa using hr)]
    rw [List.getD_eq_getElem?_getD, List.getElem?_eq_getElem (by simpa using hr)]
    rfl
  rw [h1, map_const_eq_replicate]
  rw [getD_eq_getElem _ _ _ (by simpa using hc)]
  exact List.getElem_replicate 'O' _

lemma getCell_markAll :
    ∀ (recs : List (Passenger × Int × Int)) (g : Grid), rectangular g →
      (∀ rec ∈ recs, 0 ≤ rec.2.1 ∧ rec.2.1 < (g.length : Int) ∧
        0 ≤ rec.2.2 ∧ rec.2.2 < ((g.headD []).length : Int)) →
      ∀ r c : Nat, r < g.length → c < (g.headD []).length →
        getCell (markAll g recs) r c =
          if ∃ rec ∈ recs, rec.2.1.toNat = r ∧ rec.2.2.toNat = c then 'X'
          else getCell g r c := by
  intro recs
  induction recs with
  | nil =>
    intro g _ _ r c _ _
    simp [markAll]
  | cons q recs ih =>
    intro g hrect hbounds r c hr hc
    obtain ⟨hq0, hq1, hq2, hq3⟩ := hbounds q (by simp)
    have hstep : markAll g (q :: recs) = markAll (setCell g q.2.1.toNat q.2.2.toNat 'X') recs :=
      rfl
    set g' := setCell g q.2.1.toNat q.2.2.toNat 'X' with hg'
    have hshape := sameShape_setCell g q.2.1.toNat q.2.2.toNat 'X'
    have hrect' : rectangular g' := rectangular_of_sameShape hshape hrect
    have hlen : g'.length = g.length := hshape.1
    have hw : (g'.headD []).length = (g.headD []).length := by
      rw [headD_eq_getD_zero, headD_eq_getD_zero]
      exact hshape.2 0
    have hbounds' : ∀ rec ∈ recs, 0 ≤ rec.2.1 ∧ rec.2.1 < (g'.length : Int) ∧
        0 ≤ rec.2.2 ∧ rec.2.2 < ((g'.headD []).length : Int) := by
      intro rec hrec
      obtain ⟨a, b, cc, d⟩ := hbounds rec (by simp [hrec])
      rw [hlen, hw]
      exact ⟨a, b, cc, d⟩
    rw [hstep, ih g' hrect' hbounds' r c (by omega) (by omega)]
    by_cases hhit : q.2.1.toNat = r ∧ q.2.2.toNat = c
    · have hex : ∃ rec ∈ q :: recs, rec.2.1.toNat = r ∧ rec.2.2.toNat = c :=
        ⟨q, by simp, hhit⟩
      rw [if_pos hex]
      by_cases hex2 : ∃ rec ∈ recs, rec.2.1.toNat = r ∧ rec.2.2.toNat = c
      · rw [if_pos hex2]
      · rw [if_neg hex2, hg']
        obtain ⟨hh1, hh2⟩ := hhit
        subst hh1
        subst hh2
        apply getCell_setCell_self
        · omega
        · rw [rect_row_length hrect (by omega)]
          omega
    · have hsame : getCell g' r c = getCell g r c := by
        rw [hg']
        apply getCell_setCell_other
        omega
      by_cases hex2 : ∃ rec ∈ recs, rec.2.1.toNat = r ∧ rec.2.2.toNat = c
      · rw [if_pos hex2, if_pos]
        obtain ⟨rec, hrec, hreq⟩ := hex2
        exact ⟨rec, by simp [hrec], hreq⟩
      · rw [if_neg hex2, hsame, if_neg]
        intro hex
        obtain ⟨rec, hrec, hreq⟩ := hex
        rw [List.mem_cons] at hrec
        rcases hrec with hrec | hrec
        · subst hrec
          exact hhit hreq
        · exact hex2 ⟨rec, hrec, hreq⟩

/-! ### Survivors of a roster saved with good fields -/

/-- All three fields of a record are faithful to the line format. -/
def goodRecord (p : Passenger) : Prop :=
  goodField p.name ∧ goodField p.seat_number ∧ goodField p.flight_code

lemma lineRecord_to_line (R W : Nat) (p : Passenger) (hgood : goodRecord p)
    (r c : Int) (h3 : seat_to_index p.seat_number = some (r, c))
    (hb : 0 ≤ r ∧ r < (R : Int) ∧ 0 ≤ c ∧ c < (W : Int)) :
    lineRecord R W p.to_line = some (p, r, c) := by
  obtain ⟨hn, hs, hf⟩ := hgood
  unfold lineRecord
  rw [if_neg (by rw [pyStrip_to_line p hn hf]; simpa using to_line_ne_nil p hn)]
  simp only [from_line_to_line p hn hs hf, h3]
  rw [if_pos hb]

lemma lineRecord_nil (R W : Nat) : lineRecord R W [] = none := by
  simp [lineRecord, pyStrip]

lemma survivors_save (R W : Nat) :
    ∀ roster : List Passenger,
      (∀ p ∈ roster, goodRecord p ∧
        ∃ r c : Int, seat_to_index p.seat_number = some (r, c) ∧
          0 ≤ r ∧ r < (R : Int) ∧ 0 ≤ c ∧ c < (W : Int)) →
      (survivors R W (roster.map Passenger.to_line ++ [[]])).map Prod.fst = roster ∧
      ∀ rec ∈ survivors R W (roster.map Passenger.to_line ++ [[]]),
        seat_to_index rec.1.seat_number = some (rec.2.1, rec.2.2) ∧
        0 ≤ rec.2.1 ∧ rec.2.1 < (R : Int) ∧ 0 ≤ rec.2.2 ∧ rec.2.2 < (W : Int) := by
  intro roster
  induction roster with
  | nil =>
    intro _
    constructor
    · simp [survivors, List.filterMap_cons, lineRecord_nil]
    · intro rec hrec
      simp [survivors, List.filterMap_cons, lineRecord_nil] at hrec
  | cons p rest ih =>
    intro h
    obtain ⟨hgood, r, c, h3, hb⟩ := h p (by simp)
    have hrec := lineRecord_to_line R W p hgood r c h3 hb
    have ih2 := ih (fun q hq => h q (by simp [hq]))
    have hcons : survivors R W ((p :: rest).map Passenger.to_line ++ [[]]) =
        (p, r, c) :: survivors R W (rest.map Passenger.to_line ++ [[]]) := by
      rw [List.map_cons, List.cons_append, survivors_cons, hrec]
    rw [hcons]
    constructor
    · rw [List.map_cons, ih2.1]
    · intro rec hrecm
      rw [List.mem_cons] at hrecm
      rcases hrecm with hrecm | hrecm
      · subst hrecm
        exact ⟨h3, hb⟩
      · exact ih2.2 rec hrecm

/-- C3 (amended): for a roster whose records all have good fields (nonempty,
trim-invariant, free of commas and line breaks) and seat labels that resolve
to in-bounds coordinates, saving and then loading on a rectangular grid of the
same dimensions reproduces the roster exactly (same fields, same order) and
books exactly those records' cells. -/
theorem C3_save_load_round_trip (g : Grid) (roster : List Passenger)
    (hrect : rectangular g)
    (hgood : ∀ p ∈ roster, goodRecord p ∧
      ∃ r c : Int, seat_to_index p.seat_number = some (r, c) ∧
        is_valid_index g r c = true) :
    (load_bookings g (some (save_bookings roster))).2 = roster ∧
    ∀ r c : Nat, r < g.length → c < (g.headD []).length →
      (getCell (load_bookings g (some (save_bookings roster))).1 r c = 'X' ↔
        ∃ p ∈ roster, ∃ ri ci : Int, seat_to_index p.seat_number = some (ri, ci) ∧
          ri.toNat = r ∧ ci.toNat = c) := by
  have hR : (reset_all g).length = g.length := (sameShape_reset_all g).1
  have hW : ((reset_all g).headD []).length = (g.headD []).length := by
    rw [headD_eq_getD_zero, headD_eq_getD_zero]
    exact (sameShape_reset_all g).2 0
  have hgood2 : ∀ p ∈ roster,
      goodField p.name ∧ goodField p.seat_number ∧ goodField p.flight_code :=
    fun q hq => (hgood q hq).1
  have hgood3 : ∀ p ∈ roster, goodRecord p ∧
      ∃ r c : Int, seat_to_index p.seat_number = some (r, c) ∧
        0 ≤ r ∧ r < (g.length : Int) ∧ 0 ≤ c ∧ c < ((g.headD []).length : Int) := by
    intro q hq
    obtain ⟨hg1, r, c, hparse, hvalid⟩ := hgood q hq
    exact ⟨hg1, r, c, hparse, (is_valid_index_iff g r c).mp hvalid⟩
  obtain ⟨hfst, hbounds⟩ :=
    survivors_save g.length (g.headD []).length roster hgood3
  have hload : load_bookings g (some (save_bookings roster)) =
      (markAll (reset_all g)
        (survivors g.length (g.headD []).length (roster.map Passenger.to_line ++ [[]])),
       (survivors g.length (g.headD []).length
          (roster.map Passenger.to_line ++ [[]])).map Prod.fst) := by
    show load_lines (reset_all g) [] (pySplitLines (save_bookings roster)) = _
    rw [pySplitLines_save roster hgood2, load_lines_eq, hR, hW]
    simp
  constructor
  · rw [hload]
    exact hfst
  · intro r c hr hc
    rw [hload]
    have hbounds' : ∀ rec ∈ survivors g.length (g.headD []).length
        (roster.map Passenger.to_line ++ [[]]),
        0 ≤ rec.2.1 ∧ rec.2.1 < ((reset_all g).length : Int) ∧
        0 ≤ rec.2.2 ∧ rec.2.2 < (((reset_all g).headD []).length : Int) := by
      intro rec hrec
      rw [hR, hW]
      exact (hbounds rec hrec).2
    have hmark := getCell_markAll _ (reset_all g)
      (rectangular_of_sameShape (sameShape_reset_all g) hrect) hbounds' r c
      (by omega) (by omega)
    show getCell (markAll (reset_all g) _) r c = 'X' ↔ _
    rw [hmark]
    by_cases hex : ∃ rec ∈ survivors g.length (g.headD []).length
        (roster.map Passenger.to_line ++ [[]]), rec.2.1.toNat = r ∧ rec.2.2.toNat = c
    · rw [if_pos hex]
      constructor
      · intro _
        obtain ⟨rec, hrec, hr1, hc1⟩ := hex
        refine ⟨rec.1, ?_, rec.2.1, rec.2.2, (hbounds rec hrec).1, hr1, hc1⟩
        rw [← hfst]
        exact List.mem_map.mpr ⟨rec, hrec, rfl⟩
      · intro _
        rfl
    · rw [if_neg hex]
      rw [getCell_reset_all g r c hr (by rw [rect_row_length hrect hr]; omega)]
      constructor
      · intro habs
        cases habs
      · intro hx
        exfalso
        obtain ⟨p, hp, ri, ci, hparse, hri, hci⟩ := hx
        rw [← hfst] at hp
        obtain ⟨rec, hrec, hfeq⟩ := List.mem_map.mp hp
        have hparse2 := (hbounds rec hrec).1
        rw [hfeq, hparse] at hparse2
        have hpair : ri = rec.2.1 ∧ ci = rec.2.2 := by
          have h2 := Option.some_injective _ hparse2
          exact ⟨congrArg Prod.fst h2, congrArg Prod.snd h2⟩
        apply hex
        refine ⟨rec, hrec, ?_, ?_⟩
        · rw [← hpair.1, hri]
        · rw [← hpair.2, hci]

/-- C3 counterexample: a comma-free roster whose seat label `"9Z"` is out of
the 1×1 grid's bounds is dropped on load, so save-then-load does not reproduce
the roster. -/
theorem C3_counterexample_out_of_bounds :
    (load_bookings (init_seats 1 1)
        (some (save_bookings [⟨"A".data, "9Z".data, "F".data⟩]))).2 ≠
      [(⟨"A".data, "9Z".data, "F".data⟩ : Passenger)] := by decide

/-- Witness for C3: the one-record roster `Ana,1A,MH123` round-trips on a
fresh 1×1 grid, and cell `(0, 0)` is booked afterwards. -/
theorem C3_save_load_round_trip_witness :
    rectangular (init_seats 1 1) ∧
    (load_bookings (init_seats 1 1)
        (some (save_bookings [⟨"Ana".data, "1A".data, "MH123".data⟩]))).2 =
      [(⟨"Ana".data, "1A".data, "MH123".data⟩ : Passenger)] ∧
    (getCell (load_bookings (init_seats 1 1)
        (some (save_bookings [⟨"Ana".data, "1A".data, "MH123".data⟩]))).1 0 0 = 'X' ↔
      ∃ p ∈ [(⟨"Ana".data, "1A".data, "MH123".data⟩ : Passenger)],
        ∃ ri ci : Int, seat_to_index p.seat_number = some (ri, ci) ∧
          ri.toNat = 0 ∧ ci.toNat = 0) := by
  have h := C3_save_load_round_trip (init_seats 1 1)
    [⟨"Ana".data, "1A".data, "MH123".data⟩]
    (by unfold rectangular; decide)
    (by
      intro p hp
      rw [List.mem_singleton] at hp
      subst hp
      refine ⟨⟨⟨by decide, by decide, by decide⟩, ⟨by decide, by decide, by decide⟩,
        ⟨by decide, by decide, by decide⟩⟩, 0, 0, by decide, by decide⟩)
  exact ⟨by unfold rectangular; decide, h.1, h.2 0 0 (by decide) (by decide)⟩

/-! ### The grid/roster correspondence invariant (claim C1) -/

/-- Number of roster entries whose canonicalized seat label maps to cell
`(r, c)`. -/
def countCellEntries (ps : List Passenger) (r c : Nat) : Nat :=
  ps.countP (fun p => seat_to_index p.seat_number = some ((r : Int), (c : Int)))

/-- The constraint the amended claim puts on an operation: a load must read an
existing file whose surviving records occupy pairwise distinct cells. -/
def goodOp (rows cols : Nat) : Op → Prop
  | .load none => False
  | .load (some content) =>
    ((survivors rows cols (pySplitLines content)).map (fun rec => rec.2)).Nodup
  | _ => True

/-- Session invariant: the grid is a rows×cols matrix of `'O'`/`'X'` cells,
every roster entry's seat label resolves to an in-bounds cell, and each cell is
`'X'` exactly when exactly one roster entry maps to it. -/
def Inv (rows cols : Nat) (st : Grid × List Passenger) : Prop :=
  st.1.length = rows ∧
  (∀ i : Nat, i < rows → (st.1.getD i []).length = cols) ∧
  (∀ r c : Nat, r < rows → c < cols → getCell st.1 r c = 'O' ∨ getCell st.1 r c = 'X') ∧
  (∀ p ∈ st.2, ∃ r c : Int, seat_to_index p.seat_number = some (r, c) ∧
    0 ≤ r ∧ r < (rows : Int) ∧ 0 ≤ c ∧ c < (cols : Int)) ∧
  (∀ r c : Nat, r < rows → c < cols →
    countCellEntries st.2 r c = if getCell st.1 r c = 'X' then 1 else 0)

lemma survivors_sound (R W : Nat) (lines : List Str) :
    ∀ rec ∈ survivors R W lines,
      seat_to_index rec.1.seat_number = some (rec.2.1, rec.2.2) ∧
      0 ≤ rec.2.1 ∧ rec.2.1 < (R : Int) ∧ 0 ≤ rec.2.2 ∧ rec.2.2 < (W : Int) := by
  intro rec hrec
  obtain ⟨line, _, hlr⟩ := List.mem_filterMap.mp hrec
  unfold lineRecord at hlr
  by_cases h1 : (pyStrip line).isEmpty
  · rw [if_pos h1] at hlr
    cases hlr
  · rw [if_neg h1] at hlr
    cases h2 : Passenger.from_line line with
    | none =>
      simp only [h2] at hlr
      cases hlr
    | some p =>
      simp only [h2] at hlr
      cases h3 : seat_to_index p.seat_number with
      | none =>
        simp only [h3] at hlr
        cases hlr
      | some rc =>
        obtain ⟨r, c⟩ := rc
        simp only [h3] at hlr
        by_cases h4 : 0 ≤ r ∧ r < (R : Int) ∧ 0 ≤ c ∧ c < (W : Int)
        · rw [if_pos h4] at hlr
          have hre : (p, r, c) = rec := Option.some_injective _ hlr
          rw [← hre]
          exact ⟨h3, h4⟩
        · rw [if_neg h4] at hlr
          cases hlr

lemma markAll_sameShape :
    ∀ (recs : List (Passenger × Int × Int)) (g : Grid), sameShape (markAll g recs) g := by
  intro recs
  induction recs with
  | nil => intro g; exact sameShape_refl g
  | cons q recs ih =>
    intro g
    have hstep : markAll g (q :: recs) =
        markAll (setCell g q.2.1.toNat q.2.2.toNat 'X') recs := rfl
    rw [hstep]
    exact sameShape_trans (ih _) (sameShape_setCell g q.2.1.toNat q.2.2.toNat 'X')

lemma countP_eraseIdx (ps : List Passenger) (i : Nat) (hi : i < ps.length)
    (pred : Passenger → Bool) :
    (ps.eraseIdx i).countP pred =
      ps.countP pred - (if pred (ps.getD i ⟨[], [], []⟩) then 1 else 0) := by
  have hsplit : ps = ps.take i ++ ps.getD i ⟨[], [], []⟩ :: ps.drop (i + 1) := by
    rw [getD_eq_getElem _ _ _ hi]
    rw [← List.drop_eq_getElem_cons hi]
    exact (List.take_append_drop i ps).symm
  have hcount : ps.countP pred = (ps.take i).countP pred +
      (ps.drop (i + 1)).countP pred +
      (if pred (ps.getD i ⟨[], [], []⟩) then 1 else 0) := by
    conv_lhs => rw [hsplit]
    rw [List.countP_append, List.countP_cons]
    omega
  rw [List.eraseIdx_eq_take_drop_succ, List.countP_append, hcount]
  omega

lemma countP_cell_of_nodup :
    ∀ (recs : List (Passenger × Int × Int)), ((recs.map (fun rec => rec.2)).Nodup) →
      ∀ x : Int × Int,
        recs.countP (fun rec => rec.2 = x) = if x ∈ recs.map (fun rec => rec.2) then 1 else 0 := by
  intro recs
  induction recs with
  | nil =>
    intro _ x
    simp
  | cons q recs ih =>
    intro hnd x
    rw [List.map_cons, List.nodup_cons] at hnd
    obtain ⟨hq, hnd2⟩ := hnd
    rw [List.countP_cons, ih hnd2 x, List.map_cons]
    by_cases hx : q.2 = x
    · subst hx
      rw [if_neg hq, if_pos (by simp : q.2 ∈ q.2 :: recs.map (fun rec => rec.2))]
      simp
    · by_cases hmem : x ∈ recs.map (fun rec => rec.2)
      · rw [if_pos hmem, if_pos (by simp [hmem] : x ∈ q.2 :: recs.map (fun rec => rec.2))]
        simp [hx]
      · rw [if_neg hmem, if_neg (show ¬ x ∈ q.2 :: recs.map (fun rec => rec.2) by
          simp only [List.mem_cons]
          push_neg
          exact ⟨fun he => hx he.symm, hmem⟩)]
        simp [hx]

lemma getCell_init (rows cols r c : Nat) (hr : r < rows) (hc : c < cols) :
    getCell (init_seats rows cols) r c = 'O' := by
  unfold getCell init_seats
  rw [getD_eq_getElem (List.replicate rows (List.replicate cols 'O')) r [] (by simpa using hr)]
  rw [List.getElem_replicate]
  rw [getD_eq_getElem (List.replicate cols 'O') c '?' (by simpa using hc)]
  exact List.getElem_replicate 'O' _

lemma Inv_init (rows cols : Nat) : Inv rows cols (init_seats rows cols, []) := by
  refine ⟨by simp [init_seats], ?_, ?_, ?_, ?_⟩
  · intro i hi
    show ((init_seats rows cols).getD i []).length = cols
    unfold init_seats
    rw [getD_eq_getElem _ _ _ (by simpa using hi), List.getElem_replicate]
    simp
  · intro r c hr hc
    exact Or.inl (getCell_init rows cols r c hr hc)
  · intro p hp
    cases hp
  · intro r c hr hc
    rw [getCell_init rows cols r c hr hc]
    simp [countCellEntries]

lemma Inv_book (rows cols : Nat) (hrows : 0 < rows) (st : Grid × List Passenger)
    (hinv : Inv rows cols st) (nIn fIn sIn : Str) :
    Inv rows cols (book_ticket st.1 st.2 nIn fIn sIn).2 := by
  obtain ⟨hlen, hshape, hcells, hentries, hmain⟩ := hinv
  have hheadD : (st.1.headD []).length = cols := by
    rw [headD_eq_getD_zero]
    exact hshape 0 (by omega)
  rcases book_ticket_spec st.1 st.2 nIn fIn sIn with ⟨_, hst⟩ |
    ⟨p, row, col, hok, hparse, hvalid, hcellX, htaken, hst⟩
  · rw [hst]
    exact ⟨hlen, hshape, hcells, hentries, hmain⟩
  · rw [hst]
    obtain ⟨hr0, hr1, hc0, hc1⟩ := (is_valid_index_iff st.1 row col).mp hvalid
    rw [hlen] at hr1
    rw [hheadD] at hc1
    have hrowN : (row.toNat : Int) = row := Int.toNat_of_nonneg hr0
    have hcolN : (col.toNat : Int) = col := Int.toNat_of_nonneg hc0
    have hrn : row.toNat < rows := by omega
    have hcn : col.toNat < cols := by omega
    have hshape' := sameShape_setCell st.1 row.toNat col.toNat 'X'
    have hselfr : row.toNat < st.1.length := by omega
    have hselfc : col.toNat < (st.1.getD row.toNat []).length := by
      rw [hshape row.toNat hrn]
      exact hcn
    refine ⟨?_, ?_, ?_, ?_, ?_⟩
    · show (setCell st.1 row.toNat col.toNat 'X').length = rows
      rw [hshape'.1]
      exact hlen
    · intro i hi
      show ((setCell st.1 row.toNat col.toNat 'X').getD i []).length = cols
      rw [hshape'.2 i]
      exact hshape i hi
    · intro r c hr hc
      by_cases hhit : row.toNat = r ∧ col.toNat = c
      · obtain ⟨h1, h2⟩ := hhit
        subst h1
        subst h2
        right
        exact getCell_setCell_self st.1 _ _ 'X' hselfr hselfc
      · show _ ∨ _
        rw [getCell_setCell_other st.1 row.toNat col.toNat 'X' r c (by omega)]
        exact hcells r c hr hc
    · intro q hq
      rw [List.mem_append] at hq
      rcases hq with hq | hq
      · exact hentries q hq
      · rw [List.mem_singleton] at hq
        subst hq
        exact ⟨row, col, hparse, hr0, by omega, hc0, by omega⟩
    · intro r c hr hc
      show countCellEntries (st.2 ++ [p]) r c = _
      unfold countCellEntries
      rw [List.countP_append]
      have hmain2 := hmain r c hr hc
      unfold countCellEntries at hmain2
      by_cases hhit : row.toNat = r ∧ col.toNat = c
      · obtain ⟨h1, h2⟩ := hhit
        subst h1
        subst h2
        rw [hmain2, if_neg hcellX]
        rw [getCell_setCell_self st.1 _ _ 'X' hselfr hselfc]
        simp [hparse, hrowN, hcolN]
      · rw [hmain2]
        rw [getCell_setCell_other st.1 row.toNat col.toNat 'X' r c (by omega)]
        have hpredF : ¬ seat_to_index p.seat_number = some ((r : Int), (c : Int)) := by
          rw [hparse]
          intro hco
          have h2 := Option.some_injective _ hco
          have h3 : row = (r : Int) := congrArg Prod.fst h2
          have h4 : col = (c : Int) := congrArg Prod.snd h2
          apply hhit
          constructor
          · omega
          · omega
        simp [hpredF]

lemma cancelAt_grid_good (g : Grid) (ps : List Passenger) (i : Nat) (r c : Int)
    (hparse : seat_to_index (ps.getD i ⟨[], [], []⟩).seat_number = some (r, c))
    (hvalid : is_valid_index g r c = true) :
    (cancelAt g ps i).2.1 = setCell g r.toNat c.toNat 'O' := by
  simp only [cancelAt]
  simp only [hparse, hvalid, if_true]

lemma Inv_cancel (rows cols : Nat) (hrows : 0 < rows) (st : Grid × List Passenger)
    (hinv : Inv rows cols st) (nIn cIn : Str) :
    Inv rows cols (cancel_booking st.1 st.2 nIn cIn).2 := by
  obtain ⟨hlen, hshape, hcells, hentries, hmain⟩ := hinv
  have hheadD : (st.1.headD []).length = cols := by
    rw [headD_eq_getD_zero]
    exact hshape 0 (by omega)
  rcases cancel_booking_cases st.1 st.2 nIn cIn with ⟨_, hst⟩ | ⟨i, hi, heq⟩
  · rw [hst]
    exact ⟨hlen, hshape, hcells, hentries, hmain⟩
  · have htm : st.2.getD i ⟨[], [], []⟩ ∈ st.2 := getD_mem_of_lt _ _ _ hi
    obtain ⟨r, c, hparse, hb0, hb1, hb2, hb3⟩ := hentries _ htm
    have hvalid : is_valid_index st.1 r c = true := by
      rw [is_valid_index_iff]
      refine ⟨hb0, ?_, hb2, ?_⟩
      · rw [hlen]
        exact hb1
      · rw [hheadD]
        exact hb3
    have hpair : (cancelAt st.1 st.2 i).2 =
        (setCell st.1 r.toNat c.toNat 'O', st.2.eraseIdx i) := by
      rw [Prod.ext_iff]
      exact ⟨cancelAt_grid_good st.1 st.2 i r c hparse hvalid, (cancelAt_result st.1 st.2 i).2⟩
    rw [heq]
    show Inv rows cols (cancelAt st.1 st.2 i).2
    rw [hpair]
    have hrowN : (r.toNat : Int) = r := Int.toNat_of_nonneg hb0
    have hcolN : (c.toNat : Int) = c := Int.toNat_of_nonneg hb2
    have hrn : r.toNat < rows := by omega
    have hcn : c.toNat < cols := by omega
    have hselfr : r.toNat < st.1.length := by omega
    have hselfc : c.toNat < (st.1.getD r.toNat []).length := by
      rw [hshape r.toNat hrn]
      exact hcn
    have hshape' := sameShape_setCell st.1 r.toNat c.toNat 'O'
    refine ⟨?_, ?_, ?_, ?_, ?_⟩
    · show (setCell st.1 r.toNat c.toNat 'O').length = rows
      rw [hshape'.1]
      exact hlen
    · intro j hj
      show ((setCell st.1 r.toNat c.toNat 'O').getD j []).length = cols
      rw [hshape'.2 j]
      exact hshape j hj
    · intro r' c' hr' hc'
      by_cases hhit : r.toNat = r' ∧ c.toNat = c'
      · obtain ⟨h1, h2⟩ := hhit
        subst h1
        subst h2
        left
        exact getCell_setCell_self st.1 _ _ 'O' hselfr hselfc
      · show _ ∨ _
        rw [getCell_setCell_other st.1 r.toNat c.toNat 'O' r' c' (by omega)]
        exact hcells r' c' hr' hc'
    · intro q hq
      exact hentries q (List.eraseIdx_subset _ _ hq)
    · intro r' c' hr' hc'
      show countCellEntries (st.2.eraseIdx i) r' c' = _
      unfold countCellEntries
      rw [countP_eraseIdx st.2 i hi]
      have hmain2 := hmain r' c' hr' hc'
      unfold countCellEntries at hmain2
      by_cases hhit : r.toNat = r' ∧ c.toNat = c'
      · obtain ⟨h1, h2⟩ := hhit
        subst h1
        subst h2
        have hseat2 : seat_to_index (st.2.getD i ⟨[], [], []⟩).seat_number =
            some ((r.toNat : Int), (c.toNat : Int)) := by
          rw [hparse, hrowN, hcolN]
        have hpredT : (decide (seat_to_index (st.2.getD i ⟨[], [], []⟩).seat_number =
            some ((r.toNat : Int), (c.toNat : Int)))) = true := decide_eq_true hseat2
        have hpos : 0 < st.2.countP (fun p => seat_to_index p.seat_number =
            some ((r.toNat : Int), (c.toNat : Int))) := by
          rw [List.countP_pos_iff]
          exact ⟨st.2.getD i ⟨[], [], []⟩, htm, hpredT⟩
        have hcellX : getCell st.1 r.toNat c.toNat = 'X' := by
          by_contra hno
          rw [hmain2, if_neg hno] at hpos
          omega
        rw [hmain2, if_pos hcellX]
        simp only [hpredT]
        rw [getCell_setCell_self st.1 _ _ 'O' hselfr hselfc]
        simp
      · have hpredF : (decide (seat_to_index (st.2.getD i ⟨[], [], []⟩).seat_number =
            some ((r' : Int), (c' : Int)))) = false := by
          simp only [hparse, decide_eq_false_iff_not]
          intro hco
          have h2 := Option.some_injective _ hco
          have h3 : r = (r' : Int) := congrArg Prod.fst h2
          have h4 : c = (c' : Int) := congrArg Prod.snd h2
          apply hhit
          constructor
          · omega
          · omega
        rw [hmain2, hpredF]
        rw [getCell_setCell_other st.1 r.toNat c.toNat 'O' r' c' (by omega)]
        simp

lemma Inv_load (rows cols : Nat) (hrows : 0 < rows) (st : Grid × List Passenger)
    (hinv : Inv rows cols st) (content : Str)
    (hnd : ((survivors rows cols (pySplitLines content)).map (fun rec => rec.2)).Nodup) :
    Inv rows cols (load_bookings st.1 (some content)) := by
  obtain ⟨hlen, hshape, _, _, _⟩ := hinv
  have hR : (reset_all st.1).length = rows := by
    rw [(sameShape_reset_all st.1).1]
    exact hlen
  have hW : ((reset_all st.1).headD []).length = cols := by
    rw [headD_eq_getD_zero, (sameShape_reset_all st.1).2 0]
    exact hshape 0 (by omega)
  have heq : load_bookings st.1 (some content) =
      (markAll (reset_all st.1) (survivors rows cols (pySplitLines content)),
       (survivors rows cols (pySplitLines content)).map Prod.fst) := by
    show load_lines (reset_all st.1) [] (pySplitLines content) = _
    rw [load_lines_eq, hR, hW]
    simp
  rw [heq]
  have hsound := survivors_sound rows cols (pySplitLines content)
  have hrectR : rectangular (reset_all st.1) := by
    rw [rectangular_iff_getD]
    intro i hi
    rw [headD_eq_getD_zero, (sameShape_reset_all st.1).2 0, (sameShape_reset_all st.1).2 i]
    rw [hshape 0 (by omega), hshape i (by rw [hR] at hi; exact hi)]
  have hbounds' : ∀ rec ∈ survivors rows cols (pySplitLines content),
      0 ≤ rec.2.1 ∧ rec.2.1 < ((reset_all st.1).length : Int) ∧
      0 ≤ rec.2.2 ∧ rec.2.2 < (((reset_all st.1).headD []).length : Int) := by
    intro rec hrec
    obtain ⟨_, hb⟩ := hsound rec hrec
    rw [hR, hW]
    exact hb
  have hmarkShape := markAll_sameShape (survivors rows cols (pySplitLines content))
    (reset_all st.1)
  have hcellO : ∀ r c : Nat, r < rows → c < cols → getCell (reset_all st.1) r c = 'O' := by
    intro r c hr hc
    apply getCell_reset_all
    · omega
    · rw [hshape r (by omega)]
      exact hc
  have hmark : ∀ r c : Nat, r < rows → c < cols →
      getCell (markAll (reset_all st.1) (survivors rows cols (pySplitLines content))) r c =
        if ∃ rec ∈ survivors rows cols (pySplitLines content),
            rec.2.1.toNat = r ∧ rec.2.2.toNat = c then 'X'
        else 'O' := by
    intro r c hr hc
    rw [getCell_markAll _ _ hrectR hbounds' r c (by omega) (by omega)]
    by_cases hex : ∃ rec ∈ survivors rows cols (pySplitLines content),
        rec.2.1.toNat = r ∧ rec.2.2.toNat = c
    · rw [if_pos hex, if_pos hex]
    · rw [if_neg hex, if_neg hex]
      exact hcellO r c hr hc
  refine ⟨?_, ?_, ?_, ?_, ?_⟩
  · show (markAll _ _).length = rows
    rw [hmarkShape.1]
    exact hR
  · intro i hi
    show ((markAll _ _).getD i []).length = cols
    rw [hmarkShape.2 i, (sameShape_reset_all st.1).2 i]
    exact hshape i hi
  · intro r c hr hc
    rw [hmark r c hr hc]
    by_cases hex : ∃ rec ∈ survivors rows cols (pySplitLines content),
        rec.2.1.toNat = r ∧ rec.2.2.toNat = c
    · rw [if_pos hex]
      exact Or.inr rfl
    · rw [if_neg hex]
      exact Or.inl rfl
  · intro q hq
    obtain ⟨rec, hrec, hfeq⟩ := List.mem_map.mp hq
    obtain ⟨hparse, hb⟩ := hsound rec hrec
    subst hfeq
    exact ⟨rec.2.1, rec.2.2, hparse, hb⟩
  · intro r c hr hc
    show countCellEntries _ r c = _
    unfold countCellEntries
    rw [List.countP_map]
    have hcong : (survivors rows cols (pySplitLines content)).countP
        ((fun p => decide (seat_to_index p.seat_number = some ((r : Int), (c : Int)))) ∘
          Prod.fst) =
        (survivors rows cols (pySplitLines content)).countP
          (fun rec => rec.2 = ((r : Int), (c : Int))) := by
      apply List.countP_congr
      intro rec hrec
      obtain ⟨hparse, _⟩ := hsound rec hrec
      show (decide (seat_to_index rec.1.seat_number = some ((r : Int), (c : Int))) = true) ↔ _
      rw [hparse]
      simp [Prod.ext_iff]
    rw [hcong, countP_cell_of_nodup _ hnd ((r : Int), (c : Int))]
    rw [hmark r c hr hc]
    have hcondIff : ((r : Int), (c : Int)) ∈
        (survivors rows cols (pySplitLines content)).map (fun rec => rec.2) ↔
        ∃ rec ∈ survivors rows cols (pySplitLines content),
          rec.2.1.toNat = r ∧ rec.2.2.toNat = c := by
      rw [List.mem_map]
      constructor
      · rintro ⟨rec, hrec, hcell⟩
        refine ⟨rec, hrec, ?_, ?_⟩
        · rw [show rec.2.1 = (r : Int) from congrArg Prod.fst hcell]
          simp
        · rw [show rec.2.2 = (c : Int) from congrArg Prod.snd hcell]
          simp
      · rintro ⟨rec, hrec, h1, h2⟩
        obtain ⟨_, hb0, _, hb2, _⟩ := hsound rec hrec
        refine ⟨rec, hrec, ?_⟩
        rw [Prod.ext_iff]
        constructor
        · show rec.2.1 = (r : Int)
          omega
        · show rec.2.2 = (c : Int)
          omega
    by_cases hex : ∃ rec ∈ survivors rows cols (pySplitLines content),
        rec.2.1.toNat = r ∧ rec.2.2.toNat = c
    · rw [if_pos (hcondIff.mpr hex), if_pos hex]
      simp
    · rw [if_neg (fun hmem => hex (hcondIff.mp hmem)), if_neg hex]
      simp

lemma Inv_runOps (rows cols : Nat) (hrows : 0 < rows) :
    ∀ (ops : List Op) (st : Grid × List Passenger), Inv rows cols st →
      (∀ op ∈ ops, goodOp rows cols op) → Inv rows cols (runOps st ops) := by
  intro ops
  induction ops with
  | nil =>
    intro st hinv _
    exact hinv
  | cons op rest ih =>
    intro st hinv hops
    show Inv rows cols (List.foldl applyOp (applyOp st op) rest)
    apply ih
    · cases op with
      | book n f s => exact Inv_book rows cols hrows st hinv n f s
      | cancel n c => exact Inv_cancel rows cols hrows st hinv n c
      | load file =>
        cases file with
        | none =>
          have hbad := hops (Op.load none) (by simp)
          simp [goodOp] at hbad
        | some content =>
          exact Inv_load rows cols hrows st hinv content (hops (Op.load (some content)) (by simp))
    · intro op2 hop2
      exact hops op2 (by simp [hop2])

/-- C1 (amended): starting from a fresh positive-dimension grid and an empty
roster, after any sequence of book, cancel, and load operations in which every
load reads an existing file whose surviving records occupy pairwise distinct
cells, a grid cell is `'X'` iff exactly one roster entry's canonicalized seat
label maps to that cell. -/
theorem C1_booked_iff_unique_entry (rows cols : Nat) (hrows : 0 < rows) (_hcols : 0 < cols)
    (ops : List Op) (hops : ∀ op ∈ ops, goodOp rows cols op) (r c : Nat)
    (hr : r < rows) (hc : c < cols) :
    getCell (runOps (init_seats rows cols, []) ops).1 r c = 'X' ↔
      countCellEntries (runOps (init_seats rows cols, []) ops).2 r c = 1 := by
  have hinv := Inv_runOps rows cols hrows ops (init_seats rows cols, [])
    (Inv_init rows cols) hops
  obtain ⟨_, _, _, _, hmain⟩ := hinv
  have h := hmain r c hr hc
  constructor
  · intro hx
    rw [h, if_pos hx]
  · intro h1
    by_cases hx : getCell (runOps (init_seats rows cols, []) ops).1 r c = 'X'
    · exact hx
    · rw [h, if_neg hx] at h1
      cases h1

/-- C1 counterexample: book seat 1A on a fresh 1×1 grid, then load with the
persistence file missing.  The load returns an empty roster without touching
the grid, leaving cell (0,0) BOOKED with no roster entry mapping to it. -/
theorem C1_counterexample_missing_file :
    ¬ (getCell (runOps (init_seats 1 1, [])
          [Op.book ("A".data) ("F".data) ("1A".data), Op.load none]).1 0 0 = 'X' ↔
        countCellEntries (runOps (init_seats 1 1, [])
          [Op.book ("A".data) ("F".data) ("1A".data), Op.load none]).2 0 0 = 1) := by
  have hbook : applyOp (init_seats 1 1, []) (Op.book ("A".data) ("F".data) ("1A".data)) =
      ([['X']], [⟨"A".data, "1A".data, "F".data⟩]) := by
    show (book_ticket (init_seats 1 1) [] ("A".data) ("F".data) ("1A".data)).2 = _
    rw [book_ticket]
    rw [count_step (g := init_seats 1 1) (by simp [init_seats]) (by simp [init_seats])]
    norm_num [pyStrip, pyUpper, bookCommit, seat_to_index, pyIsDigitStr, digitsVal,
      is_valid_index, getCell, is_seat_taken, init_seats, setCell]
    decide
  have hrun : runOps (init_seats 1 1, [])
      [Op.book ("A".data) ("F".data) ("1A".data), Op.load none] =
      ([['X']], []) := by
    show applyOp (applyOp (init_seats 1 1, []) (Op.book ("A".data) ("F".data) ("1A".data)))
      (Op.load none) = _
    rw [hbook]
    rfl
  rw [hrun]
  decide

/-- Witness for C1: the single good operation of booking seat 1A on a fresh
1×1 grid, checked at cell (0,0). -/
theorem C1_booked_iff_unique_entry_witness :
    (0 : Nat) < 1 ∧
    (∀ op ∈ [Op.book ("A".data) ("F".data) ("1A".data)], goodOp 1 1 op) ∧
    (getCell (runOps (init_seats 1 1, [])
        [Op.book ("A".data) ("F".data) ("1A".data)]).1 0 0 = 'X' ↔
      countCellEntries (runOps (init_seats 1 1, [])
        [Op.book ("A".data) ("F".data) ("1A".data)]).2 0 0 = 1) := by
  have hops : ∀ op ∈ [Op.book ("A".data) ("F".data) ("1A".data)], goodOp 1 1 op := by
    intro op hop
    rw [List.mem_singleton] at hop
    subst hop
    exact trivial
  exact ⟨by decide, hops,
    C1_booked_iff_unique_entry 1 1 (by decide) (by decide)
      [Op.book ("A".data) ("F".data) ("1A".data)] hops 0 0 (by decide) (by decide)⟩

end Airline
